import Mathlib

/-!
Verification of the session monitor of the screenshot-whatsapp-reports
repository.  The definitions below are a shallow embedding of
`src/session_monitor.py` (and, where noted, of `src/main.py`): pure Python
functions become Lean functions, the stateful `run_once` poll cycle becomes
explicit state passing over an association-list model of the JSON state
document, and the external collaborators (ScreenshotMonitor HTTP source,
WhatsApp sink, image downloads, the video writer) become oracle fields of an
`Env` record.  An HTTP call that raises an exception is modelled by the
oracle returning `none`, and the resulting abort of the run is threaded
through explicitly as a `Bool` "ok" flag.
-/

set_option maxRecDepth 8192

namespace SessionMonitor

/-- Zero-pad a natural number below 100 to two digits, as Python's
format spec `02d` does for the values (hours, minutes) it is applied to
in this program. -/
def pad2 (n : Nat) : String :=
  if n < 10 then ("0" ++ toString n) else toString n

/-- Embedding of `format_duration` (src/session_monitor.py, lines 50-57):
`seconds = max(0, int(seconds)); h = seconds // 3600; m = (seconds % 3600) // 60`,
rendered as `f"{h}h {m:02d}m"` when `h > 0` and `f"{m}m"` otherwise.
The clamp `max(0, ...)` on a Python int is `Int.toNat`. -/
def format_duration (seconds : Int) : String :=
  let s := seconds.toNat
  let h := s / 3600
  let m := s % 3600 / 60
  if h > 0 then (toString h ++ "h " ++ pad2 m ++ "m")
  else (toString m ++ "m")

/-- PKT is UTC+5 (`dt.timezone(dt.timedelta(hours=5))`): shifting a unix
timestamp into Pakistan local time adds 18000 seconds. -/
def pktShift (ts : Nat) : Nat := ts + 18000

/-- Embedding of `format_pkt_time` (src/session_monitor.py, lines 46-47):
`strftime("%I:%M %p")` on the PKT local time, i.e. zero-padded 12-hour
clock with an AM/PM marker. -/
def format_pkt_time (ts : Nat) : String :=
  let secsOfDay := pktShift ts % 86400
  let h24 := secsOfDay / 3600
  let m := secsOfDay % 3600 / 60
  let h12 := if h24 % 12 = 0 then 12 else h24 % 12
  let ampm := if h24 < 12 then ("AM") else ("PM")
  pad2 h12 ++ ":" ++ pad2 m ++ " " ++ ampm

/-- Civil date (year, month, day) of a day count since 1970-01-01, the
standard days-to-civil conversion used to embed Python's
`datetime.date()` on the timestamps this program feeds it (all after
the epoch, so the day count is a `Nat`). -/
def civilFromDays (z0 : Nat) : Nat × Nat × Nat :=
  let z := z0 + 719468
  let era := z / 146097
  let doe := z % 146097
  let yoe := (doe - doe / 1460 + doe / 36524 - doe / 146097) / 365
  let y := yoe + era * 400
  let doy := doe - (365 * yoe + yoe / 4 - yoe / 100)
  let mp := (5 * doy + 2) / 153
  let d := doy - (153 * mp + 2) / 5 + 1
  let m := if mp < 10 then mp + 3 else mp - 9
  (if m ≤ 2 then y + 1 else y, m, d)

/-- ISO date string (`date().isoformat()`) of the PKT local date of a
unix timestamp, as used by `ts_to_pkt(start_ts).date().isoformat()` in
`build_session_video`. -/
def pktDateStr (ts : Nat) : String :=
  let c := civilFromDays (pktShift ts / 86400)
  toString c.1 ++ "-" ++ pad2 c.2.1 ++ "-" ++ pad2 c.2.2

/-- PKT local time rendered with `strftime("%Y-%m-%d %H:%M")`, used by
`annotate_frame` in src/session_monitor.py (line 166). -/
def pktDateTimeStr (ts : Nat) : String :=
  let secsOfDay := pktShift ts % 86400
  pktDateStr ts ++ " " ++ pad2 (secsOfDay / 3600) ++ ":" ++ pad2 (secsOfDay % 3600 / 60)

/-! ## Data model

Records mirror the JSON dictionaries the ScreenshotMonitor API returns, as
read by `src/session_monitor.py` via `dict.get`: a field read with `.get`
is an `Option`.  Python numeric timestamps in this program are unix epoch
seconds (non-negative), embedded as `Nat`; activity levels and application
durations are embedded as `Int`. -/

/-- One element of a screenshot's `applications` list, with the fields
`annotate_frame` reads: `applicationName`, `duration` (default 0) and
`fromScreen` (read through `bool(...)`, so absent means `false`). -/
structure AppEntry where
  applicationName : Option String
  duration : Int
  fromScreen : Bool
deriving DecidableEq, Repr

/-- A screenshot record, with the fields read from it by
`build_session_video` and `annotate_frame` in src/session_monitor.py. -/
structure Screenshot where
  id : Option String
  activityId : Option String
  taken : Option Nat
  activityLevel : Option Int
  url : Option String
  applications : List AppEntry
deriving DecidableEq, Repr

/-- An activity ("session") record, with the fields read from it by
`run_once` and `build_session_video`. -/
structure Activity where
  activityId : Option String
  fromTime : Option Nat
  toTime : Option Nat
  note : Option String
deriving DecidableEq, Repr

/-- Per-session notification flags, the values of the persisted
`session_state.json` document:
`{"notified_start": bool, "notified_end": bool}`. -/
structure Flags where
  notified_start : Bool
  notified_end : Bool
deriving DecidableEq, Repr

/-! ## Association-list model of the state dictionaries

Python dicts are embedded as insertion-ordered association lists.
`alookup` is `d[k]`/`d.get(k)`, `alinsert` is `d.setdefault(k, v)`
(keep an existing entry, append a fresh one), `alset` is `d[k] = v`.
The outer dict of `session_state.json` is keyed by `str(employment_id)`;
since `str` is injective on the integer ids we key the embedded map by
the id itself. -/

/-- Dictionary lookup `d.get(k)` on the association-list model. -/
def alookup {κ α : Type} [DecidableEq κ] : List (κ × α) → κ → Option α
  | [], _ => none
  | (k', v) :: t, k => if k' = k then some v else alookup t k

/-- Dictionary `d.setdefault(k, v)` on the association-list model:
keeps an existing entry for `k`, otherwise appends `(k, v)`. -/
def alinsert {κ α : Type} [DecidableEq κ] : List (κ × α) → κ → α → List (κ × α)
  | [], k, v => [(k, v)]
  | (k', v') :: t, k, v => if k' = k then (k', v') :: t else (k', v') :: alinsert t k v

/-- Dictionary assignment `d[k] = v` on the association-list model. -/
def alset {κ α : Type} [DecidableEq κ] : List (κ × α) → κ → α → List (κ × α)
  | [], k, v => [(k, v)]
  | (k', v') :: t, k, v => if k' = k then (k, v) :: t else (k', v') :: alset t k v

/-- The per-employment inner dict `{activityId: {notified_start, notified_end}}`. -/
abbrev SessMap := List (String × Flags)

/-- The `state["sessions"]` dict, keyed by employment id. -/
abbrev StateMap := List (Nat × SessMap)

/-- Flags of a session in an inner dict; a missing entry reads as the
freshly defaulted `{false, false}` that `setdefault` would create. -/
def lookSF (sm : SessMap) (aid : String) : Flags :=
  (alookup sm aid).getD ⟨false, false⟩

/-- Flags of `(employment, session)` in the full state; missing employment
or session entries read as the default `{false, false}`. -/
def lookF (st : StateMap) (emp : Nat) (aid : String) : Flags :=
  match alookup st emp with
  | some sm => lookSF sm aid
  | none => ⟨false, false⟩

/-! ## External collaborators

All I/O of `run_once` is bundled in an `Env` of oracles.  A call of
`api_post` that raises (`resp.raise_for_status()`, a transport error) is a
`none` result of the corresponding oracle, and the exception aborts the
run; a screenshot download that raises inside `build_session_video` is
caught there, so it is a plain `Bool` oracle.  The WhatsApp helpers are
the Notification-sink boundary: the embedding records the calls made on
them, and `whatsapp_upload_media` returning `None` (upload failure) is the
`none` result of `uploadResult`. -/

/-- Environment of one `run_once` invocation. -/
structure Env where
  /-- The configured `EMPLOYMENTS` dict, `employmentId -> display name`. -/
  employments : List (Nat × String)
  /-- `fetch_activities_for_today`: `none` models the HTTP call raising. -/
  fetchActs : Nat → Option (List Activity)
  /-- `fetch_screenshots_for_activity`: `none` models the HTTP call raising. -/
  fetchShots : String → Option (List Screenshot)
  /-- Whether `requests.get(url)` + decode of one screenshot succeeds. -/
  download : Screenshot → Bool
  /-- Whether `imageio.get_writer` succeeds. -/
  writerOk : Bool
  /-- `whatsapp_upload_media` on a path: the returned media id, if any. -/
  uploadResult : String → Option String
  /-- `utc_now_ts()` at the moment end detection runs. -/
  now : Nat

/-! ## Frame pipeline (`build_session_video`, src/session_monitor.py 217-300) -/

/-- Round-half-to-even of the exact rational `s / n` (`n > 0`), which is
Python's `round(sum(levels) / len(levels))` with the float division
modelled exactly. -/
def roundHalfEvenDiv (s : Int) (n : Nat) : Int :=
  let f := Int.fdiv s n
  let r2 := 2 * (s - f * n)
  if r2 < n then f
  else if r2 > (n : Int) then f + 1
  else if f % 2 = 0 then f else f + 1

/-- The session's average activity level, computed by `build_session_video`
(lines 238-243) over the **original** screenshot list passed in, before any
sorting or downloading: the non-`None` `activityLevel` values, averaged
and rounded, or `None` when there are none. -/
def avgLevels (screenshots : List Screenshot) : Option Int :=
  let levels := screenshots.filterMap (fun s => s.activityLevel)
  if levels.isEmpty then none
  else some (roundHalfEvenDiv levels.sum levels.length)

/-- Sort key of `sorted(screenshots, key=lambda s: s.get("taken", 0))`. -/
def takenKey (s : Screenshot) : Nat := s.taken.getD 0

/-- Stable insertion of a screenshot into an already-sorted list: the new
element goes after every element whose key is less than or equal to its
own, which is exactly where Python's stable `sorted` keeps it. -/
def insertShot (x : Screenshot) : List Screenshot → List Screenshot
  | [] => [x]
  | y :: ys => if takenKey x < takenKey y then x :: y :: ys else y :: insertShot x ys

/-- Embedding of `sorted(screenshots, key=lambda s: s.get("taken", 0))`
(lines 245-248): an ascending stable sort on the `taken` timestamp,
missing `taken` defaulting to 0. -/
def sortShots (l : List Screenshot) : List Screenshot :=
  l.foldl (fun acc x => insertShot x acc) []

/-- Whether the download loop keeps a screenshot: it is skipped when its
`url` is falsy (`if not url: continue`) and when the download or decode
raises (lines 251-276). -/
def keepShot (env : Env) (s : Screenshot) : Bool :=
  (s.url.getD "") ≠ "" && env.download s

/-- The frame sequence of the video: the sorted screenshots that survive
download, in order.  Each surviving screenshot is downscaled and
annotated (`annotate_frame`) and its pixel array appended; the embedding
keeps the source record of each frame. -/
def framesOf (env : Env) (screenshots : List Screenshot) : List Screenshot :=
  (sortShots screenshots).filter (keepShot env)

/-- Embedding of `build_session_video(employee_name, note, activity,
screenshots)` (src/session_monitor.py, lines 217-300).  Returns
`(out_path, avg_level, frame_count)` as the Python function does, or
`none` for each of its three `return None` exits: no screenshots, no
frames after processing, or a failing video writer.  The dead local
`end_ts = activity.get("to") or start_ts` (used by nothing) is omitted.
`activity["from"]` and `activity["activityId"]` are direct subscripts;
`run_once` only calls this with both keys present. -/
def build_session_video (env : Env) (employee_name note : String) (activity : Activity)
    (screenshots : List Screenshot) : Option (String × Option Int × Nat) :=
  if screenshots.isEmpty then none
  else
    let start_ts := activity.fromTime.getD 0
    let avg_level := avgLevels screenshots
    let frames := framesOf env screenshots
    if frames.isEmpty then none
    else
      let day_str := pktDateStr start_ts
      let out_path := "session_videos/" ++ employee_name ++ "_" ++ day_str ++ "_"
        ++ activity.activityId.getD "" ++ ".mp4"
      if env.writerOk then some (out_path, avg_level, frames.length)
      else none

/-! ## Frame annotation

The drawing itself (fonts, the black box, pixel work) is outside the
embedding; what is embedded is the overlay text: the list of non-empty
lines `annotate_frame` composes and draws. -/

/-- Lexicographic key `(bool(a.get("fromScreen")), a.get("duration", 0))`
of the `max(...)` call choosing the main application. -/
def appKey (a : AppEntry) : Bool × Int := (a.fromScreen, a.duration)

/-- Strict comparison of application keys, `False < True` on the first
component as in Python tuple comparison. -/
def appKeyLt : Bool × Int → Bool × Int → Bool
  | (b1, d1), (b2, d2) => (!b1 && b2) || (b1 == b2 && d1 < d2)

/-- Python's `max` with a key: the first element of the list attaining the
maximal key (later elements replace the current best only when strictly
greater). -/
def appMax (cur : AppEntry) : List AppEntry → AppEntry
  | [] => cur
  | y :: ys => if appKeyLt (appKey cur) (appKey y) then appMax y ys else appMax cur ys

/-- The overlay lines of `annotate_frame` in src/session_monitor.py
(lines 149-198): name-and-timestamp line, activity-and-application line,
note line, with empty lines dropped (`lines = [... if line]`).  The note
is rendered as `f"Note: {note}"` whenever it is non-empty — this
annotator performs **no truncation** of the note. -/
def annotate_lines_sm (employee_name note : String) (s : Screenshot) : List String :=
  let line1 := if takenKey s ≠ 0
    then employee_name ++ " | " ++ pktDateTimeStr (takenKey s)
    else employee_name
  let main_app : Option String := match s.applications with
    | [] => none
    | x :: xs => (appMax x xs).applicationName
  let parts :=
    (match s.activityLevel with
      | some lvl => ["Activity: " ++ toString lvl ++ "%"]
      | none => []) ++
    (match main_app with
      | some app => if app ≠ "" then ["App: " ++ app] else []
      | none => [])
  let line2 := String.intercalate " | " parts
  let line3 := if note ≠ "" then ("Note: " ++ note) else ""
  (if line1 ≠ "" then [line1] else []) ++
    (if line2 ≠ "" then [line2] else []) ++
    (if line3 ≠ "" then [line3] else [])

/-- The overlay lines of `annotate_frame` in src/main.py (lines 279-313),
the daily-report annotator: it normalises a missing activity level to 0
and a missing application to "unknown", and **truncates** a note longer
than `max_note_len = 80` characters to its first 77 characters plus
`"..."` before rendering the note line. -/
def annotate_lines_main (employee_name time_str note0 : String)
    (activity_level : Option Int) (app_name0 : Option String) : List String :=
  let lvl := activity_level.getD 0
  let app := match app_name0 with
    | none => "unknown"
    | some s => if s = "" then "unknown" else s
  let note := if note0.length > 80 then note0.take 77 ++ "..." else note0
  let line1 := employee_name ++ " | " ++ time_str
  let line2 := "Activity: " ++ toString lvl ++ "% | App: " ++ app
  let line3 := if note ≠ "" then ("Note: " ++ note) else ""
  if line3 = "" then [line1, line2] else [line1, line2, line3]

/-! ## Notification events

The observable behaviour of a run is the sequence of calls made on the
WhatsApp boundary (`whatsapp_send_text`, `whatsapp_upload_media`,
`whatsapp_send_video`).  Every such call in `run_once` happens while
processing one activity of one employment, so each event is tagged with
that employment id and activity id; text sends are further tagged with
their call site (the start notification of lines 399-406, or one of the
end-path fallbacks of lines 437-454). -/

/-- Call site of a `whatsapp_send_text` call inside `run_once`. -/
inductive TextKind where
  | start
  | endFb
deriving DecidableEq, Repr

/-- A call on the WhatsApp boundary, tagged with the employment and
activity being processed when it was made. -/
inductive Event where
  | sendText (empId : Nat) (aid : String) (kind : TextKind) (msg : String)
  | uploadMedia (empId : Nat) (aid : String) (path : String)
  | sendVideo (empId : Nat) (aid : String) (mediaId : String) (caption : String)
deriving DecidableEq, Repr

/-- The employment id an event is tagged with. -/
def Event.emp : Event → Nat
  | .sendText e _ _ _ => e
  | .uploadMedia e _ _ => e
  | .sendVideo e _ _ _ => e

/-- Whether an event is the Start text notification of `(emp, aid)`. -/
def isStartEvt (emp : Nat) (aid : String) : Event → Bool
  | .sendText e a .start _ => e == emp && a == aid
  | _ => false

/-- Number of Start notifications for `(emp, aid)` in an event trace. -/
def startCount (evs : List Event) (emp : Nat) (aid : String) : Nat :=
  evs.countP (isStartEvt emp aid)

/-! ## The messages composed by `run_once` -/

/-- Note normalisation of line 392:
`(a.get("note") or "").strip() or "(no note)"`. -/
def note_of (a : Activity) : String :=
  let n := (a.note.getD "").trim
  if n = "" then ("(no note)") else n

/-- The Start text of lines 400-403. -/
def startMsg (name note : String) (start_ts : Nat) : String :=
  "▶ " ++ name ++ " STARTED session \"" ++ note ++ "\" at "
    ++ format_pkt_time start_ts ++ " (PKT)"

/-- The video caption of lines 428-434. -/
def endCaption (name note : String) (start_ts detected_end_ts : Nat) (dur : Nat)
    (frame_count : Nat) (avg_level : Option Int) : String :=
  let base := "⏹ " ++ name ++ " STOPPED · \"" ++ note ++ "\"\n"
    ++ format_pkt_time start_ts ++ " – " ++ format_pkt_time detected_end_ts
    ++ " PKT (active " ++ format_duration dur ++ "), "
    ++ toString frame_count ++ " screenshots."
  match avg_level with
  | some v => base ++ " Avg activity " ++ toString v ++ "%."
  | none => base

/-- The fallback text of lines 438-445 (upload failed after a video was
built). -/
def endFallbackUpper (name note : String) (dur : Nat) (start_ts detected_end_ts : Nat) : String :=
  "⏹ " ++ name ++ " FINISHED \"" ++ note ++ "\" (active " ++ format_duration dur
    ++ ") " ++ format_pkt_time start_ts ++ "–" ++ format_pkt_time detected_end_ts ++ " PKT"

/-- The fallback text of lines 447-454 (no video artifact was produced). -/
def endFallbackLower (name note : String) (dur : Nat) (start_ts detected_end_ts : Nat) : String :=
  "⏹ " ++ name ++ " finished \"" ++ note ++ "\" (active " ++ format_duration dur
    ++ ") " ++ format_pkt_time start_ts ++ "–" ++ format_pkt_time detected_end_ts ++ " PKT"

/-! ## The detector (`run_once`, src/session_monitor.py 369-459)

`run_once` is decomposed by its source structure: the START branch
(lines 399-406), the END branch (lines 409-456), the per-activity body
(lines 385-456), the per-employment loop body (lines 378-383) and the
outer loop plus `save_state` (lines 369-459).  Every branch returns the
events it emitted, the updated in-memory data, and an "ok" flag which is
`false` when an uncaught exception occurred there; an exception aborts
the whole run before `save_state`. -/

/-- The START branch: `if start_ts and not sess_state["notified_start"]`
(Python truthiness: a missing `from` and `from == 0` both fail the
guard), send the start text and set the flag. -/
def startBranch (empId : Nat) (name aid note : String) (a : Activity) (fl : Flags) :
    List Event × Flags :=
  if a.fromTime.getD 0 ≠ 0 ∧ fl.notified_start = false then
    ([Event.sendText empId aid TextKind.start (startMsg name note (a.fromTime.getD 0))],
      { fl with notified_start := true })
  else ([], fl)

/-- The END branch: `if end_ts and not sess_state["notified_end"]`.
A missing `from` key makes `end_ts - start_ts` raise (`ok = false`), a
raising `fetch_screenshots_for_activity` aborts likewise; otherwise the
video is built, uploaded and sent — falling back to a text message when
the artifact or the upload (a falsy media id) is missing — and
`notified_end` is set.  `max(0, end_ts - start_ts)` on the `Nat`
timestamps is truncated subtraction. -/
def endBranch (env : Env) (empId : Nat) (name aid note : String) (a : Activity) (fl : Flags) :
    List Event × Flags × Bool :=
  if a.toTime.getD 0 ≠ 0 ∧ fl.notified_end = false then
    match a.fromTime with
    | none => ([], fl, false)
    | some start_ts =>
      let dur := a.toTime.getD 0 - start_ts
      let detected := env.now
      match env.fetchShots aid with
      | none => ([], fl, false)
      | some shots =>
        let fl' := { fl with notified_end := true }
        match build_session_video env name note a shots with
        | some (path, avg, cnt) =>
          match env.uploadResult path with
          | some mid =>
            if mid ≠ "" then
              ([Event.uploadMedia empId aid path,
                Event.sendVideo empId aid mid (endCaption name note start_ts detected dur cnt avg)],
                fl', true)
            else
              ([Event.uploadMedia empId aid path,
                Event.sendText empId aid TextKind.endFb
                  (endFallbackUpper name note dur start_ts detected)],
                fl', true)
          | none =>
            ([Event.uploadMedia empId aid path,
              Event.sendText empId aid TextKind.endFb
                (endFallbackUpper name note dur start_ts detected)],
              fl', true)
        | none =>
          ([Event.sendText empId aid TextKind.endFb
              (endFallbackLower name note dur start_ts detected)],
            fl', true)
  else ([], fl, true)

/-- One iteration of the inner activity loop (lines 385-456): a falsy
`activityId` is skipped entirely (`if not aid: continue`); otherwise the
session entry is defaulted with `setdefault`, the START branch and then
the END branch run on its flags, and the updated flags are written back. -/
def processActivity (env : Env) (empId : Nat) (name : String) (sm : SessMap) (a : Activity) :
    SessMap × List Event × Bool :=
  match a.activityId with
  | none => (sm, [], true)
  | some aid =>
    if aid = "" then (sm, [], true)
    else
      let note := note_of a
      let sm1 := alinsert sm aid ⟨false, false⟩
      let fl := lookSF sm1 aid
      let sb := startBranch empId name aid note a fl
      let eb := endBranch env empId name aid note a sb.2
      (alset sm1 aid eb.2.1, sb.1 ++ eb.1, eb.2.2)

/-- The inner activity loop, aborting on the first uncaught exception. -/
def procActs (env : Env) (empId : Nat) (name : String) :
    SessMap → List Activity → SessMap × List Event × Bool
  | sm, [] => (sm, [], true)
  | sm, a :: rest =>
    let r := processActivity env empId name sm a
    if r.2.2 then
      let r' := procActs env empId name r.1 rest
      (r'.1, r.2.1 ++ r'.2.1, r'.2.2)
    else (r.1, r.2.1, false)

/-- The outer employment loop (lines 378-456):
`state["sessions"].setdefault(emp_key, {})` first, then
`fetch_activities_for_today` — whose exception aborts the run — then the
activity loop on the employment's session dict. -/
def procEmps (env : Env) : StateMap → List (Nat × String) → StateMap × List Event × Bool
  | st, [] => (st, [], true)
  | st, (e, name) :: rest =>
    let st1 := alinsert st e []
    match env.fetchActs e with
    | none => (st1, [], false)
    | some acts =>
      let sm := (alookup st1 e).getD []
      let r := procActs env e name sm acts
      let st2 := alset st1 e r.1
      if r.2.2 then
        let r' := procEmps env st2 rest
        (r'.1, r.2.1 ++ r'.2.1, r'.2.2)
      else (st2, r.2.1, false)

/-- Embedding of `run_once` (lines 369-459) given the in-memory state
`load_state` produced: the emitted events, and `some` of the state that
`save_state` persists when the run completes — `none` when an uncaught
exception aborted the run before `save_state`. -/
def run_once (env : Env) (st : StateMap) : List Event × Option StateMap :=
  let r := procEmps env st env.employments
  if r.2.2 then (r.2.1, some r.1) else (r.2.1, none)

/-- The persisted document after a `run_once` invocation: an aborted run
never reaches `save_state`, so the document on disk is unchanged. -/
def run_once_persisted (env : Env) (st : StateMap) : StateMap :=
  (run_once env st).2.getD st

/-- A sequence of `run_once` invocations sharing one state store: each
run starts from what the previous one persisted. -/
def runSeq : List Env → StateMap → List Event × StateMap
  | [], st => ([], st)
  | env :: rest, st =>
    let r := run_once env st
    let st' := r.2.getD st
    let r' := runSeq rest st'
    (r.1 ++ r'.1, r'.2)

/-! ## The state file (`save_state`, src/session_monitor.py 72-74) -/

/-- Observable content of `session_state.json`: either a completely
written document holding a state, or a truncated / partially written
file. -/
inductive Doc where
  | complete (st : StateMap)
  | truncated
deriving DecidableEq, Repr

/-- The sequence of on-disk document states during `save_state(state)`:
`STATE_FILE.open("w")` first truncates the file in place, then
`json.dump(state, f)` writes the full document.  There is no temporary
file and no rename; a previous document is destroyed before the new one
is complete. -/
def save_state_file_states (st : StateMap) : List Doc :=
  [Doc.truncated, Doc.complete st]

/-! ## Association-list lemmas -/

theorem alookup_alinsert_self {κ α : Type} [DecidableEq κ] (l : List (κ × α)) (k : κ) (v : α) :
    alookup (alinsert l k v) k = some ((alookup l k).getD v) := by
  induction l with
  | nil => simp [alookup, alinsert]
  | cons h t ih =>
    obtain ⟨k', v'⟩ := h
    by_cases hk : k' = k
    · subst hk; simp [alookup, alinsert]
    · simp [alookup, alinsert, hk, ih]

theorem alookup_alinsert_ne {κ α : Type} [DecidableEq κ] (l : List (κ × α)) (k k' : κ) (v : α)
    (h : k' ≠ k) : alookup (alinsert l k v) k' = alookup l k' := by
  have h2 : k ≠ k' := Ne.symm h
  induction l with
  | nil => simp [alookup, alinsert, h2]
  | cons hd t ih =>
    obtain ⟨k0, v0⟩ := hd
    by_cases hk : k0 = k
    · subst hk; simp [alookup, alinsert, h]
    · by_cases hk' : k0 = k'
      · subst hk'; simp [alookup, alinsert, hk]
      · simp [alookup, alinsert, hk, hk', ih]

theorem alookup_alset_self {κ α : Type} [DecidableEq κ] (l : List (κ × α)) (k : κ) (v : α) :
    alookup (alset l k v) k = some v := by
  induction l with
  | nil => simp [alookup, alset]
  | cons h t ih =>
    obtain ⟨k', v'⟩ := h
    by_cases hk : k' = k
    · subst hk; simp [alookup, alset]
    · simp [alookup, alset, hk, ih]

theorem alookup_alset_ne {κ α : Type} [DecidableEq κ] (l : List (κ × α)) (k k' : κ) (v : α)
    (h : k' ≠ k) : alookup (alset l k v) k' = alookup l k' := by
  have h2 : k ≠ k' := Ne.symm h
  induction l with
  | nil => simp [alookup, alset, h2]
  | cons hd t ih =>
    obtain ⟨k0, v0⟩ := hd
    by_cases hk : k0 = k
    · subst hk; simp [alookup, alset, h2]
    · by_cases hk' : k0 = k'
      · subst hk'; simp [alookup, alset, hk]
      · simp [alookup, alset, hk, hk', ih]

theorem lookSF_alinsert_default (sm : SessMap) (aid : String) :
    lookSF (alinsert sm aid ⟨false, false⟩) aid = lookSF sm aid := by
  unfold lookSF
  rw [alookup_alinsert_self]
  cases alookup sm aid <;> rfl

theorem lookSF_alinsert_ne (sm : SessMap) (aid aid' : String) (v : Flags) (h : aid' ≠ aid) :
    lookSF (alinsert sm aid v) aid' = lookSF sm aid' := by
  unfold lookSF
  rw [alookup_alinsert_ne _ _ _ _ h]

theorem lookSF_alset_self (sm : SessMap) (aid : String) (v : Flags) :
    lookSF (alset sm aid v) aid = v := by
  unfold lookSF
  rw [alookup_alset_self]
  rfl

theorem lookSF_alset_ne (sm : SessMap) (aid aid' : String) (v : Flags) (h : aid' ≠ aid) :
    lookSF (alset sm aid v) aid' = lookSF sm aid' := by
  unfold lookSF
  rw [alookup_alset_ne _ _ _ _ h]

/-! ## Claim C9: duration formatting -/

/-- C9.  The duration formatter clamps to non-negative and renders
`format(0s) = "0m"`, `format(3661s) = "1h 01m"`, `format(59s) = "0m"`;
in general a duration of at least one hour renders as `"Xh YYm"` with
zero-padded minutes, and a shorter one as `"Ym"`. -/
theorem C9_duration_format :
    format_duration 0 = "0m" ∧ format_duration 3661 = "1h 01m" ∧ format_duration 59 = "0m" ∧
    (∀ s : Int, s ≤ 0 → format_duration s = "0m") ∧
    (∀ h m sec : Nat, 1 ≤ h → m < 60 → sec < 60 →
      format_duration (Int.ofNat (3600 * h + 60 * m + sec)) =
        toString h ++ "h " ++ pad2 m ++ "m") ∧
    (∀ m sec : Nat, m < 60 → sec < 60 →
      format_duration (Int.ofNat (60 * m + sec)) = toString m ++ "m") := by
  refine ⟨by decide, by decide, by decide, ?_, ?_, ?_⟩
  · intro s hs
    have h0 : s.toNat = 0 := Int.toNat_of_nonpos hs
    simp only [format_duration, h0]
    decide
  · intro h m sec h1 hm hsec
    have ht : (Int.ofNat (3600 * h + 60 * m + sec)).toNat = 3600 * h + 60 * m + sec := rfl
    have hdiv : (3600 * h + 60 * m + sec) / 3600 = h := by omega
    have hmod : (3600 * h + 60 * m + sec) % 3600 = 60 * m + sec := by omega
    have hm60 : (60 * m + sec) / 60 = m := by omega
    simp only [format_duration, ht, hdiv, hmod, hm60]
    rw [if_pos (by omega : h > 0)]
  · intro m sec hm hsec
    have ht : (Int.ofNat (60 * m + sec)).toNat = 60 * m + sec := rfl
    have hdiv : (60 * m + sec) / 3600 = 0 := by omega
    have hmod : (60 * m + sec) % 3600 = 60 * m + sec := by omega
    have hm60 : (60 * m + sec) / 60 = m := by omega
    simp only [format_duration, ht, hdiv, hmod, hm60]
    rw [if_neg (by omega : ¬ (0 : Nat) > 0)]

/-- Witness for C9 at concrete inputs. -/
theorem C9_duration_format_witness :
    format_duration (-5) = "0m" ∧
    format_duration (Int.ofNat (3600 * 2 + 60 * 5 + 7)) = toString 2 ++ "h " ++ pad2 5 ++ "m" :=
  ⟨C9_duration_format.2.2.2.1 (-5) (by norm_num),
   C9_duration_format.2.2.2.2.1 2 5 7 (by norm_num) (by norm_num) (by norm_num)⟩

/-! ## Claim C10: falsy activityId records are skipped entirely -/

/-- C10.  A polled activity whose `activityId` is missing or empty is
skipped by the detector loop: no state entry is created, no event is
emitted, no exception is raised, and the session map is returned
unchanged. -/
theorem C10_skip_falsy_activity_id (env : Env) (empId : Nat) (name : String)
    (sm : SessMap) (a : Activity)
    (h : a.activityId = none ∨ a.activityId = some "") :
    processActivity env empId name sm a = (sm, [], true) := by
  rcases h with h | h <;> simp [processActivity, h]

/-- An environment with all oracles inert, for concrete witnesses. -/
def envNull : Env :=
  { employments := []
    fetchActs := fun _ => none
    fetchShots := fun _ => none
    download := fun _ => false
    writerOk := false
    uploadResult := fun _ => none
    now := 0 }

/-- Witness for C10: an activity with `from` and `to` present but no
`activityId`, processed against a non-trivial session map. -/
theorem C10_skip_falsy_activity_id_witness :
    processActivity envNull 1 ("A") [("s9", ⟨true, false⟩)] ⟨none, some 5, some 9, none⟩ =
      ([("s9", ⟨true, false⟩)], [], true) :=
  C10_skip_falsy_activity_id envNull 1 ("A") [("s9", ⟨true, false⟩)]
    ⟨none, some 5, some 9, none⟩ (Or.inl rfl)

/-! ## Claim C3: `save_state` is not atomic -/

/-- A sample previous document for the C3 counterexample. -/
def stPrev : StateMap := [(1, [("a", ⟨true, false⟩)])]

/-- C3 counterexample.  `save_state` is **not** temp-file-then-rename: at
the concrete input (previous document `stPrev`, new state `[]`), the
on-disk states passed through during the save include a truncated
document that is neither the complete old document nor the complete new
one, so an interrupted save does not leave old-or-new. -/
theorem C3_counterexample :
    ¬ (∀ d ∈ save_state_file_states [], d = Doc.complete stPrev ∨ d = Doc.complete []) := by
  decide

/-- C3 amended.  `save_state` overwrites the previous document in full —
a completed save leaves exactly the complete new document — but it does
so in place (truncate, then write), not atomically: the truncated state
is passed through, so an interrupted save can leave a partial document. -/
theorem C3_save_overwrites_in_place (st : StateMap) :
    (save_state_file_states st).getLast? = some (Doc.complete st) ∧
    Doc.truncated ∈ save_state_file_states st := by
  exact ⟨rfl, by simp [save_state_file_states]⟩

/-! ## Claim C7: average activity level is over the original screenshot set -/

/-- C7.  When `build_session_video` produces an artifact, its
`averageActivityLevel` component is `avgLevels` of the **original**
screenshot list passed in — a value independent of which downloads
survive — and it is absent exactly when no screenshot carries an
`activityLevel`.  (`avgLevels` is the rounded mean of the non-absent
levels, with Python's banker's rounding modelled exactly on the
rationals.) -/
theorem C7_avg_over_original (env : Env) (name note : String) (a : Activity)
    (screenshots : List Screenshot) (path : String) (avg : Option Int) (cnt : Nat)
    (h : build_session_video env name note a screenshots = some (path, avg, cnt)) :
    avg = avgLevels screenshots ∧
    (avgLevels screenshots = none ↔
      screenshots.filterMap (fun s => s.activityLevel) = []) := by
  constructor
  · unfold build_session_video at h
    by_cases h1 : screenshots.isEmpty
    · simp [h1] at h
    · by_cases h2 : (framesOf env screenshots).isEmpty
      · simp [h1, h2] at h
      · by_cases h3 : env.writerOk
        · simp [h1, h2, h3] at h
          exact h.2.1.symm
        · simp [h1, h2, h3] at h
  · unfold avgLevels
    by_cases hl : (screenshots.filterMap (fun s => s.activityLevel)).isEmpty
    · simp only [hl, if_true]
      simpa using List.isEmpty_iff.mp hl
    · simp only [hl, if_false]
      constructor
      · intro hc; exact absurd hc (by simp)
      · intro hc; exact absurd (List.isEmpty_iff.mpr hc) hl

/-- An environment whose oracles all succeed, for concrete witnesses. -/
def envFull : Env :=
  { employments := [(1, ("A"))]
    fetchActs := fun _ => some []
    fetchShots := fun _ => some []
    download := fun _ => true
    writerOk := true
    uploadResult := fun _ => some ("m1")
    now := 500 }

/-- A screenshot with an activity level whose frame survives. -/
def shotW1 : Screenshot := ⟨some "w1", some "s1", some 10, some 80, some "u", []⟩

/-- A screenshot with no level and a falsy `url`, so its frame is
dropped while its (absent) level still belongs to the original set. -/
def shotW2 : Screenshot := ⟨some "w2", some "s1", some 5, none, some "", []⟩

/-- A closed activity for the witnesses. -/
def actW : Activity := ⟨some "s1", some 100, some 200, none⟩

/-- Witness for C7 at a concrete artifact-producing input. -/
theorem C7_avg_over_original_witness :
    (some (80 : Int) : Option Int) = avgLevels [shotW1, shotW2] ∧
    (avgLevels [shotW1, shotW2] = none ↔
      ([shotW1, shotW2].filterMap (fun s => s.activityLevel) = [])) :=
  C7_avg_over_original envFull ("A") ("n") actW [shotW1, shotW2]
    ("session_videos/" ++ "A" ++ "_" ++ pktDateStr 100 ++ "_" ++ "s1" ++ ".mp4")
    (some 80) 1 (by rfl)

/-! ## Claim C8: note truncation in the overlay -/

/-- Non-emptiness of a composed note line. -/
theorem note_line_ne_empty (t : String) : ("Note: " ++ t) ≠ "" := by
  intro hc
  have hlen := congrArg String.length hc
  simp [String.length_append] at hlen
  exact absurd hlen.1 (by decide)

/-- A 100-character note for the C8 counterexample. -/
def longNote : String := String.mk (List.replicate 100 'a')

/-- A screenshot with no metadata, so only the name line and the note
line are rendered by the session-end annotator. -/
def shotBare : Screenshot := ⟨none, none, none, none, none, []⟩

/-- C8 counterexample.  The session-end pipeline's annotator
(`annotate_frame` in src/session_monitor.py) does **not** truncate: at
the concrete 100-character note, the rendered note line is `"Note: "`
followed by the full note, which differs from the truncated-with-ellipsis
line the claim requires. -/
theorem C8_counterexample :
    (annotate_lines_sm ("VOID") longNote shotBare).getLast? = some ("Note: " ++ longNote) ∧
    longNote.length = 100 ∧
    ("Note: " ++ longNote) ≠ ("Note: " ++ (longNote.take 77 ++ "...")) := by
  refine ⟨by decide, by decide, by decide⟩

/-- C8 amended.  The **daily-report** annotator (`annotate_frame` in
src/main.py) renders the note line with the note truncated to its first
77 characters plus an `"..."` marker exactly when the note exceeds 80
characters, and unmodified otherwise; the **session-end** annotator
(`annotate_frame` in src/session_monitor.py) renders the note unmodified
at every length. -/
theorem C8_note_truncation (employee_name time_str note : String) (lvl : Option Int)
    (app : Option String) (s : Screenshot) (hnote : note ≠ "") :
    (annotate_lines_main employee_name time_str note lvl app).getLast? =
      some ("Note: " ++ (if note.length > 80 then note.take 77 ++ "..." else note)) ∧
    (note.length ≤ 80 →
      (annotate_lines_main employee_name time_str note lvl app).getLast? =
        some ("Note: " ++ note)) ∧
    (annotate_lines_sm employee_name note s).getLast? = some ("Note: " ++ note) := by
  have hmain : (annotate_lines_main employee_name time_str note lvl app).getLast? =
      some ("Note: " ++ (if note.length > 80 then note.take 77 ++ "..." else note)) := by
    by_cases hlen : note.length > 80
    · have hne2 : (note.take 77 ++ "...") ≠ "" := by
        intro hc
        have hl := congrArg String.length hc
        simp [String.length_append] at hl
        exact absurd hl.2 (by decide)
      simp [annotate_lines_main, hlen, hne2, note_line_ne_empty]
    · simp [annotate_lines_main, hlen, hnote, note_line_ne_empty]
  refine ⟨hmain, ?_, ?_⟩
  · intro hle
    rw [hmain, if_neg (by omega)]
  · simp only [annotate_lines_sm]
    rw [if_pos hnote]
    rw [if_pos (note_line_ne_empty note)]
    rw [List.getLast?_concat]

/-! ## Claim C6: frame ordering and sort stability -/

theorem mem_insertShot (x z : Screenshot) (l : List Screenshot) :
    z ∈ insertShot x l ↔ z = x ∨ z ∈ l := by
  induction l with
  | nil => simp [insertShot]
  | cons y ys ih =>
    by_cases h : takenKey x < takenKey y
    · rw [insertShot, if_pos h]
      exact List.mem_cons
    · rw [insertShot, if_neg h]
      simp [ih]
      tauto

theorem insertShot_sorted (x : Screenshot) (l : List Screenshot)
    (hl : l.Pairwise (fun s t => takenKey s ≤ takenKey t)) :
    (insertShot x l).Pairwise (fun s t => takenKey s ≤ takenKey t) := by
  induction l with
  | nil => simp [insertShot]
  | cons y ys ih =>
    rcases List.pairwise_cons.mp hl with ⟨hy, hys⟩
    by_cases h : takenKey x < takenKey y
    · rw [insertShot, if_pos h]
      refine List.pairwise_cons.mpr ⟨?_, hl⟩
      intro z hz
      rcases List.mem_cons.mp hz with rfl | hz'
      · exact Nat.le_of_lt h
      · exact Nat.le_trans (Nat.le_of_lt h) (hy z hz')
    · rw [insertShot, if_neg h]
      refine List.pairwise_cons.mpr ⟨?_, ih hys⟩
      intro z hz
      rcases (mem_insertShot x z ys).mp hz with rfl | hz'
      · exact Nat.le_of_not_lt h
      · exact hy z hz'

theorem foldl_insertShot_sorted (l acc : List Screenshot)
    (hacc : acc.Pairwise (fun s t => takenKey s ≤ takenKey t)) :
    (l.foldl (fun a x => insertShot x a) acc).Pairwise (fun s t => takenKey s ≤ takenKey t) := by
  induction l generalizing acc with
  | nil => simpa using hacc
  | cons x xs ih => exact ih _ (insertShot_sorted x acc hacc)

theorem sortShots_sorted (l : List Screenshot) :
    (sortShots l).Pairwise (fun s t => takenKey s ≤ takenKey t) :=
  foldl_insertShot_sorted l [] (by simp)

theorem filter_insertShot (x : Screenshot) (l : List Screenshot) (k : Nat)
    (hl : l.Pairwise (fun s t => takenKey s ≤ takenKey t)) :
    (insertShot x l).filter (fun s => takenKey s == k) =
      if takenKey x == k then l.filter (fun s => takenKey s == k) ++ [x]
      else l.filter (fun s => takenKey s == k) := by
  induction l with
  | nil =>
    by_cases h : takenKey x == k <;> simp [insertShot, List.filter, h]
  | cons y ys ih =>
    rcases List.pairwise_cons.mp hl with ⟨hy, hys⟩
    by_cases hlt : takenKey x < takenKey y
    · rw [insertShot, if_pos hlt]
      by_cases hxk : takenKey x == k
      · have hk : takenKey x = k := by simpa using hxk
        have hnil : (y :: ys).filter (fun s => takenKey s == k) = [] := by
          refine List.filter_eq_nil_iff.mpr ?_
          intro z hz
          have hge : takenKey y ≤ takenKey z := by
            rcases List.mem_cons.mp hz with rfl | hz'
            · exact Nat.le_refl _
            · exact hy z hz'
          simp only [beq_iff_eq]
          omega
        simp [List.filter_cons, hxk, hnil]
      · simp [List.filter_cons, hxk]
    · rw [insertShot, if_neg hlt]
      by_cases hyk : takenKey y == k <;> by_cases hxk : takenKey x == k <;>
        simp [List.filter_cons, hyk, hxk, ih hys]

theorem filter_foldl_insertShot (l acc : List Screenshot) (k : Nat)
    (hacc : acc.Pairwise (fun s t => takenKey s ≤ takenKey t)) :
    (l.foldl (fun a x => insertShot x a) acc).filter (fun s => takenKey s == k) =
      acc.filter (fun s => takenKey s == k) ++ l.filter (fun s => takenKey s == k) := by
  induction l generalizing acc with
  | nil => simp
  | cons x xs ih =>
    rw [List.foldl_cons, ih _ (insertShot_sorted x acc hacc), filter_insertShot x acc k hacc]
    by_cases hx : takenKey x == k <;> simp [List.filter_cons, hx]

theorem sortShots_stable (l : List Screenshot) (k : Nat) :
    (sortShots l).filter (fun s => takenKey s == k) = l.filter (fun s => takenKey s == k) := by
  simpa [sortShots] using filter_foldl_insertShot l [] k (by simp)

/-- C6.  The frames appended to the encoded video (the surviving
screenshots, in the order the download loop visits them) have
non-decreasing `taken` keys, and the sort producing that order is
stable: for every key value, the screenshots with that `taken` key
appear in the sorted list exactly in their source-provided relative
order. -/
theorem C6_frame_ordering (env : Env) (screenshots : List Screenshot) :
    (framesOf env screenshots).Pairwise (fun s t => takenKey s ≤ takenKey t) ∧
    ∀ k, (sortShots screenshots).filter (fun s => takenKey s == k) =
      screenshots.filter (fun s => takenKey s == k) := by
  constructor
  · exact List.Pairwise.sublist (List.filter_sublist _) (sortShots_sorted screenshots)
  · intro k
    exact sortShots_stable screenshots k

/-- Witness for C8 at a concrete 81-character note (truncated by the
daily-report annotator) applied through the amended theorem. -/
theorem C8_note_truncation_witness :
    (annotate_lines_main ("V") ("t") (String.mk (List.replicate 81 'b')) none none).getLast? =
      some ("Note: " ++ (if (String.mk (List.replicate 81 'b')).length > 80
        then (String.mk (List.replicate 81 'b')).take 77 ++ "..."
        else String.mk (List.replicate 81 'b'))) ∧
    (annotate_lines_sm ("V") (String.mk (List.replicate 81 'b')) shotBare).getLast? =
      some ("Note: " ++ String.mk (List.replicate 81 'b')) := by
  have h := C8_note_truncation ("V") ("t") (String.mk (List.replicate 81 'b'))
    none none shotBare (by decide)
  exact ⟨h.1, h.2.2⟩

/-! ## Claim C5: dispatcher fallback policy on an End event -/

/-- C5.  In the End branch of `run_once`: a `sendVideo` call happens only
when the screenshots were fetched, `build_session_video` produced an
artifact, and the upload returned a (truthy) media handle for its path;
and whenever the End branch fires but no artifact was produced or the
upload returned no handle, a fallback text is sent and `sendVideo` is
never called for that session. -/
theorem C5_dispatch_policy (env : Env) (empId : Nat) (name aid note : String)
    (a : Activity) (fl : Flags) :
    (∀ e a' mid cap,
      Event.sendVideo e a' mid cap ∈ (endBranch env empId name aid note a fl).1 →
        ∃ shots path avg cnt,
          env.fetchShots aid = some shots ∧
          build_session_video env name note a shots = some (path, avg, cnt) ∧
          env.uploadResult path = some mid ∧ mid ≠ "") ∧
    (∀ shots, env.fetchShots aid = some shots →
      a.toTime.getD 0 ≠ 0 → fl.notified_end = false → a.fromTime.isSome →
      (build_session_video env name note a shots = none ∨
        (∃ path avg cnt, build_session_video env name note a shots = some (path, avg, cnt) ∧
          env.uploadResult path = none)) →
      (∃ m, Event.sendText empId aid TextKind.endFb m ∈
        (endBranch env empId name aid note a fl).1) ∧
      (∀ e a' mid cap,
        Event.sendVideo e a' mid cap ∉ (endBranch env empId name aid note a fl).1)) := by
  constructor
  · intro e a' mid cap hmem
    unfold endBranch at hmem
    by_cases hcond : a.toTime.getD 0 ≠ 0 ∧ fl.notified_end = false
    · cases hfrom : a.fromTime with
      | none => simp only [if_pos hcond, hfrom] at hmem; simp at hmem
      | some st =>
        cases hsh : env.fetchShots aid with
        | none => simp only [if_pos hcond, hfrom, hsh] at hmem; simp at hmem
        | some shots =>
          cases hb : build_session_video env name note a shots with
          | none => simp only [if_pos hcond, hfrom, hsh, hb] at hmem; simp at hmem
          | some tri =>
            obtain ⟨path, avg, cnt⟩ := tri
            cases hup : env.uploadResult path with
            | none => simp only [if_pos hcond, hfrom, hsh, hb, hup] at hmem; simp at hmem
            | some mid0 =>
              by_cases hmid : mid0 ≠ ""
              · simp only [if_pos hcond, hfrom, hsh, hb, hup, if_pos hmid] at hmem
                simp at hmem
                obtain ⟨he, ha, hm, hc⟩ := hmem
                refine ⟨shots, path, avg, cnt, rfl, hb, ?_, ?_⟩
                · rw [hm]; exact hup
                · rw [hm]; exact hmid
              · simp only [if_pos hcond, hfrom, hsh, hb, hup, if_neg hmid] at hmem
                simp at hmem
    · rw [if_neg hcond] at hmem
      simp at hmem
  · intro shots hsh hto hfl hfrom hfail
    obtain ⟨st, hst⟩ := Option.isSome_iff_exists.mp hfrom
    have hcond : a.toTime.getD 0 ≠ 0 ∧ fl.notified_end = false := ⟨hto, hfl⟩
    rcases hfail with hb | ⟨path, avg, cnt, hb, hup⟩
    · constructor
      · refine ⟨endFallbackLower name note (a.toTime.getD 0 - st) st env.now, ?_⟩
        simp only [endBranch, if_pos hcond, hst, hsh, hb]
        simp
      · intro e a' mid cap
        simp only [endBranch, if_pos hcond, hst, hsh, hb]
        simp
    · constructor
      · refine ⟨endFallbackUpper name note (a.toTime.getD 0 - st) st env.now, ?_⟩
        simp only [endBranch, if_pos hcond, hst, hsh, hb, hup]
        simp
      · intro e a' mid cap
        simp only [endBranch, if_pos hcond, hst, hsh, hb, hup]
        simp

/-- An environment whose upload always fails, for the C5 witness. -/
def envUpFail : Env :=
  { employments := [(1, ("A"))]
    fetchActs := fun _ => some []
    fetchShots := fun _ => some [shotW1]
    download := fun _ => true
    writerOk := true
    uploadResult := fun _ => none
    now := 500 }

/-- Witness for C5: a concrete End event whose artifact builds but whose
upload fails falls back to a text send with no `sendVideo`. -/
theorem C5_dispatch_policy_witness :
    (∃ m, Event.sendText 1 ("s1") TextKind.endFb m ∈
      (endBranch envUpFail 1 ("A") ("s1") ("n") actW ⟨true, false⟩).1) ∧
    (∀ e a' mid cap, Event.sendVideo e a' mid cap ∉
      (endBranch envUpFail 1 ("A") ("s1") ("n") actW ⟨true, false⟩).1) :=
  (C5_dispatch_policy envUpFail 1 ("A") ("s1") ("n") actW ⟨true, false⟩).2
    [shotW1] rfl (by decide) rfl rfl
    (Or.inr ⟨"session_videos/" ++ "A" ++ "_" ++ pktDateStr 100 ++ "_" ++ "s1" ++ ".mp4",
      avgLevels [shotW1], 1, by rfl, rfl⟩)

/-! ## Detector lemmas

The exactly-once and monotonicity claims are proved by structural
induction over the loops of `run_once`, with one lemma per source
construct: the START/END branches, the activity loop body, the activity
loop, the employment loop, one run, and a run sequence. -/

/-- The activity id an event is tagged with. -/
def Event.aid : Event → String
  | .sendText _ a _ _ => a
  | .uploadMedia _ a _ => a
  | .sendVideo _ a _ _ => a

/-- Pointwise Boolean order on notification flags: no flag regresses. -/
def flagsLe (f g : Flags) : Prop :=
  f.notified_start ≤ g.notified_start ∧ f.notified_end ≤ g.notified_end

theorem flagsLe_refl (f : Flags) : flagsLe f f := ⟨le_refl _, le_refl _⟩

theorem flagsLe_trans {f g h : Flags} (h1 : flagsLe f g) (h2 : flagsLe g h) : flagsLe f h :=
  ⟨le_trans h1.1 h2.1, le_trans h1.2 h2.2⟩

/-- The START branch only reads and possibly raises `notified_start`. -/
theorem startBranch_flags (empId : Nat) (name aid note : String) (a : Activity) (fl : Flags) :
    (startBranch empId name aid note a fl).2 = fl ∨
    (startBranch empId name aid note a fl).2 = { fl with notified_start := true } := by
  unfold startBranch
  split
  · exact Or.inr rfl
  · exact Or.inl rfl

/-- The END branch only reads and possibly raises `notified_end`. -/
theorem endBranch_flags (env : Env) (empId : Nat) (name aid note : String) (a : Activity)
    (fl : Flags) :
    (endBranch env empId name aid note a fl).2.1 = fl ∨
    (endBranch env empId name aid note a fl).2.1 = { fl with notified_end := true } := by
  simp only [endBranch]
  repeat' split
  all_goals simp

/-- Every event of the START branch is a start text tagged `(empId, aid)`. -/
theorem startBranch_events (empId : Nat) (name aid note : String) (a : Activity) (fl : Flags) :
    (startBranch empId name aid note a fl).1 = [] ∨
    (startBranch empId name aid note a fl).1 =
      [Event.sendText empId aid TextKind.start (startMsg name note (a.fromTime.getD 0))] := by
  unfold startBranch
  split
  · exact Or.inr rfl
  · exact Or.inl rfl

/-- No event of the END branch is a Start notification. -/
theorem endBranch_no_start (env : Env) (empId : Nat) (name aid note : String) (a : Activity)
    (fl : Flags) (emp' : Nat) (aid' : String) :
    ∀ ev ∈ (endBranch env empId name aid note a fl).1, isStartEvt emp' aid' ev = false := by
  simp only [endBranch]
  repeat' split
  all_goals intro ev hev
  all_goals fin_cases hev <;> rfl

/-- Every event of the END branch is tagged `(empId, aid)`. -/
theorem endBranch_events_tag (env : Env) (empId : Nat) (name aid note : String) (a : Activity)
    (fl : Flags) :
    ∀ ev ∈ (endBranch env empId name aid note a fl).1, ev.emp = empId ∧ ev.aid = aid := by
  simp only [endBranch]
  repeat' split
  all_goals intro ev hev
  all_goals fin_cases hev <;> exact ⟨rfl, rfl⟩

/-- START branch when the flag is already set: a no-op. -/
theorem startBranch_already (empId : Nat) (name aid note : String) (a : Activity) (fl : Flags)
    (h : fl.notified_start = true) :
    startBranch empId name aid note a fl = ([], fl) := by
  unfold startBranch
  rw [if_neg]
  simp [h]

/-- START branch on a falsy `from`: a no-op. -/
theorem startBranch_falsy (empId : Nat) (name aid note : String) (a : Activity) (fl : Flags)
    (h : a.fromTime.getD 0 = 0) :
    startBranch empId name aid note a fl = ([], fl) := by
  unfold startBranch
  rw [if_neg]
  simp [h]

/-- START branch firing: truthy `from` and an unset flag send exactly
the start text and set the flag. -/
theorem startBranch_fire (empId : Nat) (name aid note : String) (a : Activity) (fl : Flags)
    (h1 : a.fromTime.getD 0 ≠ 0) (h2 : fl.notified_start = false) :
    startBranch empId name aid note a fl =
      ([Event.sendText empId aid TextKind.start (startMsg name note (a.fromTime.getD 0))],
        { fl with notified_start := true }) := by
  unfold startBranch
  rw [if_pos ⟨h1, h2⟩]

/-! ### Per-activity lemmas -/

/-- Internal restatement of the falsy-id skip, for use by the loop
lemmas. -/
theorem pa_falsy (env : Env) (empId : Nat) (name : String) (sm : SessMap) (a : Activity)
    (h : a.activityId = none ∨ a.activityId = some "") :
    processActivity env empId name sm a = (sm, [], true) := by
  rcases h with h | h <;> simp [processActivity, h]

/-- Processing an activity of a different session id touches neither the
target session's flags nor its start count. -/
theorem pa_untouched (env : Env) (empId : Nat) (name : String) (sm : SessMap) (a : Activity)
    (aid aid' : String) (h1 : a.activityId = some aid') (h2 : aid' ≠ "") (h3 : aid ≠ aid') :
    lookSF (processActivity env empId name sm a).1 aid = lookSF sm aid ∧
    startCount (processActivity env empId name sm a).2.1 empId aid = 0 := by
  simp only [processActivity, h1]
  rw [if_neg h2]
  constructor
  · rw [lookSF_alset_ne _ _ _ _ h3, lookSF_alinsert_ne _ _ _ _ h3]
  · unfold startCount
    rw [List.countP_eq_zero]
    intro ev hev
    rw [List.mem_append] at hev
    rcases hev with hev | hev
    · rcases startBranch_events empId name aid' (note_of a) a
        (lookSF (alinsert sm aid' ⟨false, false⟩) aid') with hsb | hsb
      · rw [hsb] at hev; simp at hev
      · rw [hsb] at hev
        simp at hev
        subst hev
        simp [isStartEvt, Ne.symm h3]
    · have := endBranch_no_start env empId name aid' (note_of a)
        a _ empId aid ev hev
      simp [this]

/-- Processing the target session with a falsy `from`: no start event,
and the start flag is unchanged. -/
theorem pa_nofire (env : Env) (empId : Nat) (name : String) (sm : SessMap) (a : Activity)
    (aid : String) (h1 : a.activityId = some aid) (h2 : aid ≠ "")
    (h3 : a.fromTime.getD 0 = 0) :
    startCount (processActivity env empId name sm a).2.1 empId aid = 0 ∧
    (lookSF (processActivity env empId name sm a).1 aid).notified_start =
      (lookSF sm aid).notified_start := by
  simp only [processActivity, h1]
  rw [if_neg h2]
  have hsb := startBranch_falsy empId name aid (note_of a) a
    (lookSF (alinsert sm aid ⟨false, false⟩) aid) h3
  rw [hsb]
  constructor
  · unfold startCount
    rw [List.countP_eq_zero]
    intro ev hev
    simp only [List.nil_append] at hev
    have := endBranch_no_start env empId name aid (note_of a) a _ empId aid ev hev
    simp [this]
  · rw [lookSF_alset_self]
    rcases endBranch_flags env empId name aid (note_of a) a
      (lookSF (alinsert sm aid ⟨false, false⟩) aid) with hfl | hfl
    · rw [hfl, lookSF_alinsert_default]
    · rw [hfl]
      simp [lookSF_alinsert_default]

/-- Processing the target session when `notified_start` is already true:
no start event, and the flag stays true. -/
theorem pa_start_true (env : Env) (empId : Nat) (name : String) (sm : SessMap) (a : Activity)
    (aid : String) (h : (lookSF sm aid).notified_start = true) :
    startCount (processActivity env empId name sm a).2.1 empId aid = 0 ∧
    (lookSF (processActivity env empId name sm a).1 aid).notified_start = true := by
  cases ha : a.activityId with
  | none =>
    rw [pa_falsy env empId name sm a (Or.inl ha)]
    exact ⟨rfl, h⟩
  | some aid' =>
    by_cases he : aid' = ""
    · subst he
      rw [pa_falsy env empId name sm a (Or.inr ha)]
      exact ⟨rfl, h⟩
    · by_cases heq : aid = aid'
      · subst heq
        simp only [processActivity, ha]
        rw [if_neg he]
        have hfl0 : (lookSF (alinsert sm aid ⟨false, false⟩) aid).notified_start = true := by
          rw [lookSF_alinsert_default]; exact h
        have hsb := startBranch_already empId name aid (note_of a) a
          (lookSF (alinsert sm aid ⟨false, false⟩) aid) hfl0
        rw [hsb]
        constructor
        · unfold startCount
          rw [List.countP_eq_zero]
          intro ev hev
          simp only [List.nil_append] at hev
          have := endBranch_no_start env empId name aid (note_of a) a _ empId aid ev hev
          simp [this]
        · rw [lookSF_alset_self]
          rcases endBranch_flags env empId name aid (note_of a) a
            (lookSF (alinsert sm aid ⟨false, false⟩) aid) with hfl | hfl
          · rw [hfl]; exact hfl0
          · rw [hfl]; exact hfl0
      · have := pa_untouched env empId name sm a aid aid' ha he heq
        rw [this.1]
        exact ⟨this.2, h⟩

/-- Processing a truthy-start sighting of the target session with the
flag unset: exactly one Start notification, and the flag is set. -/
theorem pa_start_fire (env : Env) (empId : Nat) (name : String) (sm : SessMap) (a : Activity)
    (aid : String) (h1 : a.activityId = some aid) (h2 : aid ≠ "")
    (h3 : a.fromTime.getD 0 ≠ 0) (h4 : (lookSF sm aid).notified_start = false) :
    startCount (processActivity env empId name sm a).2.1 empId aid = 1 ∧
    (lookSF (processActivity env empId name sm a).1 aid).notified_start = true := by
  simp only [processActivity, h1]
  rw [if_neg h2]
  have hfl0 : (lookSF (alinsert sm aid ⟨false, false⟩) aid).notified_start = false := by
    rw [lookSF_alinsert_default]; exact h4
  have hsb := startBranch_fire empId name aid (note_of a) a
    (lookSF (alinsert sm aid ⟨false, false⟩) aid) h3 hfl0
  rw [hsb]
  constructor
  · unfold startCount
    rw [List.countP_append]
    have hone : List.countP (isStartEvt empId aid)
        [Event.sendText empId aid TextKind.start
          (startMsg name (note_of a) (a.fromTime.getD 0))] = 1 := by
      simp [List.countP_cons, isStartEvt]
    rw [hone]
    have hzero : List.countP (isStartEvt empId aid)
        (endBranch env empId name aid (note_of a) a
          { lookSF (alinsert sm aid ⟨false, false⟩) aid with notified_start := true }).1 = 0 := by
      rw [List.countP_eq_zero]
      intro ev hev
      have := endBranch_no_start env empId name aid (note_of a) a _ empId aid ev hev
      simp [this]
    rw [hzero]
  · rw [lookSF_alset_self]
    rcases endBranch_flags env empId name aid (note_of a) a
      { lookSF (alinsert sm aid ⟨false, false⟩) aid with notified_start := true } with hfl | hfl
    · rw [hfl]
    · rw [hfl]

/-- Processing any activity never lowers any session's flags. -/
theorem pa_mono (env : Env) (empId : Nat) (name : String) (sm : SessMap) (a : Activity)
    (aid : String) :
    flagsLe (lookSF sm aid) (lookSF (processActivity env empId name sm a).1 aid) := by
  cases ha : a.activityId with
  | none => rw [pa_falsy env empId name sm a (Or.inl ha)]; exact flagsLe_refl _
  | some aid' =>
    by_cases he : aid' = ""
    · subst he
      rw [pa_falsy env empId name sm a (Or.inr ha)]
      exact flagsLe_refl _
    · by_cases heq : aid = aid'
      · subst heq
        simp only [processActivity, ha]
        rw [if_neg he]
        rw [lookSF_alset_self]
        have hbase : lookSF (alinsert sm aid ⟨false, false⟩) aid = lookSF sm aid :=
          lookSF_alinsert_default sm aid
        have hsb : flagsLe (lookSF sm aid)
            (startBranch empId name aid (note_of a) a
              (lookSF (alinsert sm aid ⟨false, false⟩) aid)).2 := by
          rcases startBranch_flags empId name aid (note_of a) a
            (lookSF (alinsert sm aid ⟨false, false⟩) aid) with hx | hx
          · rw [hx, hbase]; exact flagsLe_refl _
          · rw [hx, hbase]
            exact ⟨Bool.le_true _, le_refl _⟩
        refine flagsLe_trans hsb ?_
        rcases endBranch_flags env empId name aid (note_of a) a
          (startBranch empId name aid (note_of a) a
            (lookSF (alinsert sm aid ⟨false, false⟩) aid)).2 with hx | hx
        · rw [hx]; exact flagsLe_refl _
        · rw [hx]
          exact ⟨le_refl _, Bool.le_true _⟩
      · rw [(pa_untouched env empId name sm a aid aid' ha he heq).1]
        exact flagsLe_refl _

/-- Every event of the activity loop body is tagged with the processing
employment. -/
theorem pa_events_emp (env : Env) (empId : Nat) (name : String) (sm : SessMap) (a : Activity) :
    ∀ ev ∈ (processActivity env empId name sm a).2.1, ev.emp = empId := by
  cases ha : a.activityId with
  | none => rw [pa_falsy env empId name sm a (Or.inl ha)]; intro ev hev; simp at hev
  | some aid' =>
    by_cases he : aid' = ""
    · subst he
      rw [pa_falsy env empId name sm a (Or.inr ha)]
      intro ev hev; simp at hev
    · simp only [processActivity, ha]
      rw [if_neg he]
      intro ev hev
      rw [List.mem_append] at hev
      rcases hev with hev | hev
      · rcases startBranch_events empId name aid' (note_of a) a
          (lookSF (alinsert sm aid' ⟨false, false⟩) aid') with hsb | hsb
        · rw [hsb] at hev; simp at hev
        · rw [hsb] at hev
          simp at hev
          subst hev
          rfl
      · exact (endBranch_events_tag env empId name aid' (note_of a) a _ ev hev).1

/-! ### Activity-loop lemmas -/

theorem startCount_append (l1 l2 : List Event) (e : Nat) (a : String) :
    startCount (l1 ++ l2) e a = startCount l1 e a + startCount l2 e a :=
  List.countP_append _ _ _

theorem procActs_cons_ok (env : Env) (empId : Nat) (name : String) (sm : SessMap)
    (a : Activity) (rest : List Activity)
    (h : (processActivity env empId name sm a).2.2 = true) :
    procActs env empId name sm (a :: rest) =
      ((procActs env empId name (processActivity env empId name sm a).1 rest).1,
       (processActivity env empId name sm a).2.1 ++
         (procActs env empId name (processActivity env empId name sm a).1 rest).2.1,
       (procActs env empId name (processActivity env empId name sm a).1 rest).2.2) := by
  simp only [procActs]
  rw [if_pos h]

theorem procActs_cons_bad (env : Env) (empId : Nat) (name : String) (sm : SessMap)
    (a : Activity) (rest : List Activity)
    (h : (processActivity env empId name sm a).2.2 = false) :
    procActs env empId name sm (a :: rest) =
      ((processActivity env empId name sm a).1,
       (processActivity env empId name sm a).2.1, false) := by
  simp only [procActs]
  rw [if_neg (by simp [h])]

/-- The activity loop never lowers any session's flags. -/
theorem pas_mono (env : Env) (empId : Nat) (name : String) (acts : List Activity)
    (sm : SessMap) (aid : String) :
    flagsLe (lookSF sm aid) (lookSF (procActs env empId name sm acts).1 aid) := by
  induction acts generalizing sm with
  | nil => exact flagsLe_refl _
  | cons a rest ih =>
    cases hok : (processActivity env empId name sm a).2.2 with
    | true =>
      rw [procActs_cons_ok env empId name sm a rest hok]
      exact flagsLe_trans (pa_mono env empId name sm a aid) (ih _)
    | false =>
      rw [procActs_cons_bad env empId name sm a rest hok]
      exact pa_mono env empId name sm a aid

/-- Every event of the activity loop is tagged with the processing
employment. -/
theorem pas_events_emp (env : Env) (empId : Nat) (name : String) (acts : List Activity)
    (sm : SessMap) :
    ∀ ev ∈ (procActs env empId name sm acts).2.1, ev.emp = empId := by
  induction acts generalizing sm with
  | nil => intro ev hev; simp [procActs] at hev
  | cons a rest ih =>
    intro ev hev
    cases hok : (processActivity env empId name sm a).2.2 with
    | true =>
      rw [procActs_cons_ok env empId name sm a rest hok] at hev
      simp only [List.mem_append] at hev
      rcases hev with hev | hev
      · exact pa_events_emp env empId name sm a ev hev
      · exact ih _ ev hev
    | false =>
      rw [procActs_cons_bad env empId name sm a rest hok] at hev
      exact pa_events_emp env empId name sm a ev hev

/-- Activity loop with the start flag already set: no Start event, flag
stays set. -/
theorem pas_start_true (env : Env) (empId : Nat) (name : String) (acts : List Activity)
    (sm : SessMap) (aid : String) (h : (lookSF sm aid).notified_start = true) :
    startCount (procActs env empId name sm acts).2.1 empId aid = 0 ∧
    (lookSF (procActs env empId name sm acts).1 aid).notified_start = true := by
  induction acts generalizing sm with
  | nil => exact ⟨rfl, h⟩
  | cons a rest ih =>
    obtain ⟨hc0, hf0⟩ := pa_start_true env empId name sm a aid h
    cases hok : (processActivity env empId name sm a).2.2 with
    | true =>
      rw [procActs_cons_ok env empId name sm a rest hok]
      obtain ⟨hc1, hf1⟩ := ih _ hf0
      constructor
      · simp [startCount_append, hc0, hc1]
      · simpa using hf1
    | false =>
      rw [procActs_cons_bad env empId name sm a rest hok]
      exact ⟨hc0, hf0⟩

/-- Activity loop that completes and contains a truthy-start sighting of
an unset session: exactly one Start event, and the flag ends set. -/
theorem pas_start_fire (env : Env) (empId : Nat) (name : String) (acts : List Activity)
    (sm : SessMap) (aid : String) (hne : aid ≠ "")
    (hmem : ∃ a ∈ acts, a.activityId = some aid ∧ a.fromTime.getD 0 ≠ 0)
    (h0 : (lookSF sm aid).notified_start = false)
    (hok : (procActs env empId name sm acts).2.2 = true) :
    startCount (procActs env empId name sm acts).2.1 empId aid = 1 ∧
    (lookSF (procActs env empId name sm acts).1 aid).notified_start = true := by
  induction acts generalizing sm with
  | nil => simp at hmem
  | cons a rest ih =>
    have hhead : (processActivity env empId name sm a).2.2 = true := by
      cases hx : (processActivity env empId name sm a).2.2 with
      | false =>
        rw [procActs_cons_bad env empId name sm a rest hx] at hok
        simp at hok
      | true => rfl
    have hok' : (procActs env empId name (processActivity env empId name sm a).1 rest).2.2
        = true := by
      rw [procActs_cons_ok env empId name sm a rest hhead] at hok
      simpa using hok
    rw [procActs_cons_ok env empId name sm a rest hhead]
    by_cases hs : a.activityId = some aid ∧ a.fromTime.getD 0 ≠ 0
    · obtain ⟨ha, hf⟩ := hs
      obtain ⟨hc1, hf1⟩ := pa_start_fire env empId name sm a aid ha hne hf h0
      obtain ⟨hc2, hf2⟩ := pas_start_true env empId name rest
        (processActivity env empId name sm a).1 aid hf1
      constructor
      · simp [startCount_append, hc1, hc2]
      · simpa using hf2
    · have hstep : startCount (processActivity env empId name sm a).2.1 empId aid = 0 ∧
          (lookSF (processActivity env empId name sm a).1 aid).notified_start = false := by
        cases ha : a.activityId with
        | none => rw [pa_falsy env empId name sm a (Or.inl ha)]; exact ⟨rfl, h0⟩
        | some aid' =>
          by_cases he : aid' = ""
          · subst he
            rw [pa_falsy env empId name sm a (Or.inr ha)]
            exact ⟨rfl, h0⟩
          · by_cases heq : aid = aid'
            · subst heq
              have hf0 : a.fromTime.getD 0 = 0 := by
                by_contra hf
                exact hs ⟨ha, hf⟩
              obtain ⟨hc, hflag⟩ := pa_nofire env empId name sm a aid ha he hf0
              exact ⟨hc, by rw [hflag]; exact h0⟩
            · obtain ⟨hlook, hc⟩ := pa_untouched env empId name sm a aid aid' ha he heq
              exact ⟨hc, by rw [hlook]; exact h0⟩
      have hmem' : ∃ b ∈ rest, b.activityId = some aid ∧ b.fromTime.getD 0 ≠ 0 := by
        rcases hmem with ⟨b, hb, hprop⟩
        rcases List.mem_cons.mp hb with rfl | hbr
        · exact absurd hprop hs
        · exact ⟨b, hbr, hprop⟩
      obtain ⟨hc2, hf2⟩ := ih _ hmem' hstep.2 hok'
      constructor
      · simp [startCount_append, hstep.1, hc2]
      · simpa using hf2

/-! ### Employment-loop lemmas -/

theorem lookF_alinsert_nil (st : StateMap) (e e' : Nat) (aid : String) :
    lookF (alinsert st e []) e' aid = lookF st e' aid := by
  by_cases he : e' = e
  · subst he
    cases hx : alookup st e' with
    | none => simp [lookF, alookup_alinsert_self, hx, lookSF, alookup]
    | some sm => simp [lookF, alookup_alinsert_self, hx]
  · simp [lookF, alookup_alinsert_ne _ _ _ _ he]

theorem lookF_alinsert_nil_self (st : StateMap) (e : Nat) (aid : String) :
    lookSF ((alookup (alinsert st e []) e).getD []) aid = lookF st e aid := by
  rw [alookup_alinsert_self]
  cases hx : alookup st e with
  | none => simp [lookF, hx, lookSF, alookup]
  | some sm => simp [lookF, hx]

theorem lookF_alset_self_sm (st : StateMap) (e : Nat) (sm' : SessMap) (aid : String) :
    lookF (alset st e sm') e aid = lookSF sm' aid := by
  simp [lookF, alookup_alset_self]

theorem lookF_alset_ne_emp (st : StateMap) (e e' : Nat) (sm' : SessMap) (aid : String)
    (h : e' ≠ e) : lookF (alset st e sm') e' aid = lookF st e' aid := by
  simp [lookF, alookup_alset_ne _ _ _ _ h]

/-- An event tagged with a different employment is not a Start event of
the target. -/
theorem isStartEvt_ne_emp (emp : Nat) (aid : String) (ev : Event) (h : ev.emp ≠ emp) :
    isStartEvt emp aid ev = false := by
  cases ev with
  | sendText e a k m =>
    cases k with
    | start =>
      have he : e ≠ emp := h
      simp [isStartEvt, he]
    | endFb => rfl
  | uploadMedia e a p => rfl
  | sendVideo e a m c => rfl

theorem procEmps_cons_fail (env : Env) (st : StateMap) (e : Nat) (name : String)
    (rest : List (Nat × String)) (h : env.fetchActs e = none) :
    procEmps env st ((e, name) :: rest) = (alinsert st e [], [], false) := by
  simp [procEmps, h]

theorem procEmps_cons_ok (env : Env) (st : StateMap) (e : Nat) (name : String)
    (rest : List (Nat × String)) (acts : List Activity)
    (hf : env.fetchActs e = some acts)
    (hok : (procActs env e name ((alookup (alinsert st e []) e).getD []) acts).2.2 = true) :
    procEmps env st ((e, name) :: rest) =
      ((procEmps env (alset (alinsert st e [])
          e (procActs env e name ((alookup (alinsert st e []) e).getD []) acts).1) rest).1,
       (procActs env e name ((alookup (alinsert st e []) e).getD []) acts).2.1 ++
         (procEmps env (alset (alinsert st e [])
           e (procActs env e name ((alookup (alinsert st e []) e).getD []) acts).1) rest).2.1,
       (procEmps env (alset (alinsert st e [])
         e (procActs env e name ((alookup (alinsert st e []) e).getD []) acts).1) rest).2.2) := by
  simp only [procEmps, hf]
  rw [if_pos hok]

theorem procEmps_cons_bad (env : Env) (st : StateMap) (e : Nat) (name : String)
    (rest : List (Nat × String)) (acts : List Activity)
    (hf : env.fetchActs e = some acts)
    (hok : (procActs env e name ((alookup (alinsert st e []) e).getD []) acts).2.2 = false) :
    procEmps env st ((e, name) :: rest) =
      (alset (alinsert st e [])
        e (procActs env e name ((alookup (alinsert st e []) e).getD []) acts).1,
       (procActs env e name ((alookup (alinsert st e []) e).getD []) acts).2.1, false) := by
  simp only [procEmps, hf]
  rw [if_neg (by simp [hok])]

/-- The state update of one employment-loop iteration never lowers any
flags. -/
theorem pe_step_mono (env : Env) (e0 : Nat) (nm0 : String) (acts : List Activity)
    (st : StateMap) (e : Nat) (aid : String) :
    flagsLe (lookF st e aid)
      (lookF (alset (alinsert st e0 [])
        e0 (procActs env e0 nm0 ((alookup (alinsert st e0 []) e0).getD []) acts).1) e aid) := by
  by_cases he : e = e0
  · subst he
    rw [lookF_alset_self_sm]
    rw [← lookF_alinsert_nil_self st e aid]
    exact pas_mono env e nm0 acts _ aid
  · rw [lookF_alset_ne_emp _ _ _ _ _ he, lookF_alinsert_nil]
    exact flagsLe_refl _

/-- The employment loop never lowers any flags. -/
theorem pe_mono (env : Env) (emps : List (Nat × String)) (st : StateMap) (e : Nat)
    (aid : String) :
    flagsLe (lookF st e aid) (lookF (procEmps env st emps).1 e aid) := by
  induction emps generalizing st with
  | nil => exact flagsLe_refl _
  | cons p rest ih =>
    obtain ⟨e0, nm0⟩ := p
    cases hf : env.fetchActs e0 with
    | none =>
      rw [procEmps_cons_fail env st e0 nm0 rest hf]
      rw [lookF_alinsert_nil]
      exact flagsLe_refl _
    | some acts =>
      cases hok : (procActs env e0 nm0 ((alookup (alinsert st e0 []) e0).getD []) acts).2.2 with
      | true =>
        rw [procEmps_cons_ok env st e0 nm0 rest acts hf hok]
        exact flagsLe_trans (pe_step_mono env e0 nm0 acts st e aid) (ih _)
      | false =>
        rw [procEmps_cons_bad env st e0 nm0 rest acts hf hok]
        exact pe_step_mono env e0 nm0 acts st e aid

/-- Employment loop with the start flag already set: no Start event for
the target, and the flag stays set. -/
theorem pe_start_true (env : Env) (emps : List (Nat × String)) (st : StateMap) (emp : Nat)
    (aid : String) (h : (lookF st emp aid).notified_start = true) :
    startCount (procEmps env st emps).2.1 emp aid = 0 ∧
    (lookF (procEmps env st emps).1 emp aid).notified_start = true := by
  induction emps generalizing st with
  | nil => exact ⟨rfl, h⟩
  | cons p rest ih =>
    obtain ⟨e0, nm0⟩ := p
    cases hf : env.fetchActs e0 with
    | none =>
      rw [procEmps_cons_fail env st e0 nm0 rest hf]
      refine ⟨rfl, ?_⟩
      rw [lookF_alinsert_nil]
      exact h
    | some acts =>
      have hstep : startCount
          (procActs env e0 nm0 ((alookup (alinsert st e0 []) e0).getD []) acts).2.1 emp aid = 0 ∧
          (lookF (alset (alinsert st e0 [])
            e0 (procActs env e0 nm0 ((alookup (alinsert st e0 []) e0).getD []) acts).1)
            emp aid).notified_start = true := by
        by_cases he : emp = e0
        · subst he
          have hsm : (lookSF ((alookup (alinsert st emp []) emp).getD []) aid).notified_start
              = true := by
            rw [lookF_alinsert_nil_self]; exact h
          obtain ⟨hc, hfl⟩ := pas_start_true env emp nm0 acts _ aid hsm
          refine ⟨hc, ?_⟩
          rw [lookF_alset_self_sm]
          exact hfl
        · constructor
          · unfold startCount
            rw [List.countP_eq_zero]
            intro ev hev
            have hemp := pas_events_emp env e0 nm0 acts _ ev hev
            have : ev.emp ≠ emp := by rw [hemp]; exact fun hx => he hx.symm
            simp [isStartEvt_ne_emp emp aid ev this]
          · rw [lookF_alset_ne_emp _ _ _ _ _ he, lookF_alinsert_nil]
            exact h
      cases hok : (procActs env e0 nm0 ((alookup (alinsert st e0 []) e0).getD []) acts).2.2 with
      | true =>
        rw [procEmps_cons_ok env st e0 nm0 rest acts hf hok]
        obtain ⟨hc2, hf2⟩ := ih _ hstep.2
        constructor
        · simp [startCount_append, hstep.1, hc2]
        · simpa using hf2
      | false =>
        rw [procEmps_cons_bad env st e0 nm0 rest acts hf hok]
        exact hstep

/-- Employment loop that completes and lists an employment whose fetch
contains a truthy-start sighting of an unset session: exactly one Start
event, and the flag ends set. -/
theorem pe_start_fire (env : Env) (emps : List (Nat × String)) (st : StateMap) (emp : Nat)
    (aid : String) (hne : aid ≠ "")
    (hmem : ∃ nm acts, (emp, nm) ∈ emps ∧ env.fetchActs emp = some acts ∧
      ∃ a ∈ acts, a.activityId = some aid ∧ a.fromTime.getD 0 ≠ 0)
    (h0 : (lookF st emp aid).notified_start = false)
    (hok : (procEmps env st emps).2.2 = true) :
    startCount (procEmps env st emps).2.1 emp aid = 1 ∧
    (lookF (procEmps env st emps).1 emp aid).notified_start = true := by
  induction emps generalizing st with
  | nil =>
    obtain ⟨nm, acts, hm, _, _⟩ := hmem
    simp at hm
  | cons p rest ih =>
    obtain ⟨e0, nm0⟩ := p
    by_cases he : e0 = emp
    · subst he
      obtain ⟨nm, acts, hm, hfetch, hsight⟩ := hmem
      cases hf : env.fetchActs e0 with
      | none => rw [hf] at hfetch; exact absurd hfetch (by simp)
      | some acts0 =>
        have hacts : acts0 = acts := by
          rw [hf] at hfetch
          exact Option.some.inj hfetch
        subst hacts
        have hhead : (procActs env e0 nm0
            ((alookup (alinsert st e0 []) e0).getD []) acts0).2.2 = true := by
          cases hx : (procActs env e0 nm0
              ((alookup (alinsert st e0 []) e0).getD []) acts0).2.2 with
          | false =>
            rw [procEmps_cons_bad env st e0 nm0 rest acts0 hf hx] at hok
            simp at hok
          | true => rfl
        have hsm0 : (lookSF ((alookup (alinsert st e0 []) e0).getD []) aid).notified_start
            = false := by
          rw [lookF_alinsert_nil_self]; exact h0
        obtain ⟨hc1, hf1⟩ := pas_start_fire env e0 nm0 acts0 _ aid hne hsight hsm0 hhead
        have hok' : (procEmps env (alset (alinsert st e0 [])
            e0 (procActs env e0 nm0 ((alookup (alinsert st e0 []) e0).getD []) acts0).1)
            rest).2.2 = true := by
          rw [procEmps_cons_ok env st e0 nm0 rest acts0 hf hhead] at hok
          simpa using hok
        have hst2 : (lookF (alset (alinsert st e0 [])
            e0 (procActs env e0 nm0 ((alookup (alinsert st e0 []) e0).getD []) acts0).1)
            e0 aid).notified_start = true := by
          rw [lookF_alset_self_sm]
          exact hf1
        obtain ⟨hc2, hf2⟩ := pe_start_true env rest _ e0 aid hst2
        rw [procEmps_cons_ok env st e0 nm0 rest acts0 hf hhead]
        constructor
        · simp [startCount_append, hc1, hc2]
        · simpa using hf2
    · cases hf : env.fetchActs e0 with
      | none =>
        rw [procEmps_cons_fail env st e0 nm0 rest hf] at hok
        simp at hok
      | some acts0 =>
        have hhead : (procActs env e0 nm0
            ((alookup (alinsert st e0 []) e0).getD []) acts0).2.2 = true := by
          cases hx : (procActs env e0 nm0
              ((alookup (alinsert st e0 []) e0).getD []) acts0).2.2 with
          | false =>
            rw [procEmps_cons_bad env st e0 nm0 rest acts0 hf hx] at hok
            simp at hok
          | true => rfl
        have hok' : (procEmps env (alset (alinsert st e0 [])
            e0 (procActs env e0 nm0 ((alookup (alinsert st e0 []) e0).getD []) acts0).1)
            rest).2.2 = true := by
          rw [procEmps_cons_ok env st e0 nm0 rest acts0 hf hhead] at hok
          simpa using hok
        have hc1 : startCount (procActs env e0 nm0
            ((alookup (alinsert st e0 []) e0).getD []) acts0).2.1 emp aid = 0 := by
          unfold startCount
          rw [List.countP_eq_zero]
          intro ev hev
          have hemp := pas_events_emp env e0 nm0 acts0 _ ev hev
          have : ev.emp ≠ emp := by rw [hemp]; exact he
          simp [isStartEvt_ne_emp emp aid ev this]
        have h0' : (lookF (alset (alinsert st e0 [])
            e0 (procActs env e0 nm0 ((alookup (alinsert st e0 []) e0).getD []) acts0).1)
            emp aid).notified_start = false := by
          rw [lookF_alset_ne_emp _ _ _ _ _ (fun hx => he hx.symm), lookF_alinsert_nil]
          exact h0
        have hmem' : ∃ nm acts, (emp, nm) ∈ rest ∧ env.fetchActs emp = some acts ∧
            ∃ a ∈ acts, a.activityId = some aid ∧ a.fromTime.getD 0 ≠ 0 := by
          obtain ⟨nm, acts, hm, hfetch, hsight⟩ := hmem
          rcases List.mem_cons.mp hm with hx | hx
          · exact absurd (congrArg Prod.fst hx).symm he
          · exact ⟨nm, acts, hx, hfetch, hsight⟩
        obtain ⟨hc2, hf2⟩ := ih _ hmem' h0' hok'
        rw [procEmps_cons_ok env st e0 nm0 rest acts0 hf hhead]
        constructor
        · simp [startCount_append, hc1, hc2]
        · simpa using hf2

/-- A listed employment whose fetch raises makes the whole run fail. -/
theorem pe_fetch_fail (env : Env) (emps : List (Nat × String)) (st : StateMap) (e : Nat)
    (nm : String) (hmem : (e, nm) ∈ emps) (hfail : env.fetchActs e = none) :
    (procEmps env st emps).2.2 = false := by
  induction emps generalizing st with
  | nil => simp at hmem
  | cons p rest ih =>
    obtain ⟨e0, nm0⟩ := p
    cases hf : env.fetchActs e0 with
    | none => rw [procEmps_cons_fail env st e0 nm0 rest hf]
    | some acts0 =>
      have hmem' : (e, nm) ∈ rest := by
        rcases List.mem_cons.mp hmem with hx | hx
        · exfalso
          have he0 : e = e0 := congrArg Prod.fst hx
          rw [he0, hf] at hfail
          exact absurd hfail (by simp)
        · exact hx
      cases hok : (procActs env e0 nm0 ((alookup (alinsert st e0 []) e0).getD []) acts0).2.2 with
      | true =>
        rw [procEmps_cons_ok env st e0 nm0 rest acts0 hf hok]
        simpa using ih _ hmem'
      | false =>
        rw [procEmps_cons_bad env st e0 nm0 rest acts0 hf hok]

/-! ### Run-level lemmas -/

theorem run_once_eq_ok (env : Env) (st : StateMap)
    (h : (procEmps env st env.employments).2.2 = true) :
    run_once env st = ((procEmps env st env.employments).2.1,
      some (procEmps env st env.employments).1) := by
  simp only [run_once]
  rw [if_pos h]

theorem run_once_eq_bad (env : Env) (st : StateMap)
    (h : (procEmps env st env.employments).2.2 = false) :
    run_once env st = ((procEmps env st env.employments).2.1, none) := by
  simp only [run_once]
  rw [if_neg (by simp [h])]

theorem run_once_events (env : Env) (st : StateMap) :
    (run_once env st).1 = (procEmps env st env.employments).2.1 := by
  simp only [run_once]
  split <;> rfl

theorem ro_mono (env : Env) (st : StateMap) (emp : Nat) (aid : String) :
    flagsLe (lookF st emp aid) (lookF (run_once_persisted env st) emp aid) := by
  unfold run_once_persisted
  cases hok : (procEmps env st env.employments).2.2 with
  | true =>
    rw [run_once_eq_ok env st hok]
    simpa using pe_mono env env.employments st emp aid
  | false =>
    rw [run_once_eq_bad env st hok]
    exact flagsLe_refl _

theorem ro_start_true (env : Env) (st : StateMap) (emp : Nat) (aid : String)
    (h : (lookF st emp aid).notified_start = true) :
    startCount (run_once env st).1 emp aid = 0 ∧
    (lookF (run_once_persisted env st) emp aid).notified_start = true := by
  obtain ⟨hc, hf⟩ := pe_start_true env env.employments st emp aid h
  constructor
  · rw [run_once_events]; exact hc
  · unfold run_once_persisted
    cases hok : (procEmps env st env.employments).2.2 with
    | true => rw [run_once_eq_ok env st hok]; simpa using hf
    | false => rw [run_once_eq_bad env st hok]; simpa using h

theorem ro_start_fire (env : Env) (st : StateMap) (emp : Nat) (aid : String) (st' : StateMap)
    (hne : aid ≠ "")
    (hs : ∃ nm acts, (emp, nm) ∈ env.employments ∧ env.fetchActs emp = some acts ∧
      ∃ a ∈ acts, a.activityId = some aid ∧ a.fromTime.getD 0 ≠ 0)
    (h0 : (lookF st emp aid).notified_start = false)
    (hsome : (run_once env st).2 = some st') :
    startCount (run_once env st).1 emp aid = 1 ∧
    (lookF st' emp aid).notified_start = true := by
  cases hok : (procEmps env st env.employments).2.2 with
  | false =>
    rw [run_once_eq_bad env st hok] at hsome
    simp at hsome
  | true =>
    rw [run_once_eq_ok env st hok] at hsome
    have hst' : (procEmps env st env.employments).1 = st' := by
      simpa using hsome
    obtain ⟨hc, hf⟩ := pe_start_fire env env.employments st emp aid hne hs h0 hok
    constructor
    · rw [run_once_events]; exact hc
    · rw [← hst']; exact hf

theorem runSeq_cons (env : Env) (rest : List Env) (st : StateMap) :
    runSeq (env :: rest) st =
      ((run_once env st).1 ++ (runSeq rest ((run_once env st).2.getD st)).1,
       (runSeq rest ((run_once env st).2.getD st)).2) := by
  simp only [runSeq]

theorem rs_start_true (envs : List Env) (st : StateMap) (emp : Nat) (aid : String)
    (h : (lookF st emp aid).notified_start = true) :
    startCount (runSeq envs st).1 emp aid = 0 ∧
    (lookF (runSeq envs st).2 emp aid).notified_start = true := by
  induction envs generalizing st with
  | nil => exact ⟨rfl, h⟩
  | cons env rest ih =>
    rw [runSeq_cons]
    obtain ⟨hc1, hf1⟩ := ro_start_true env st emp aid h
    obtain ⟨hc2, hf2⟩ := ih ((run_once env st).2.getD st) hf1
    constructor
    · simp [startCount_append, hc1, hc2]
    · simpa using hf2

theorem rs_mono (envs : List Env) (st : StateMap) (emp : Nat) (aid : String) :
    flagsLe (lookF st emp aid) (lookF (runSeq envs st).2 emp aid) := by
  induction envs generalizing st with
  | nil => exact flagsLe_refl _
  | cons env rest ih =>
    rw [runSeq_cons]
    exact flagsLe_trans (ro_mono env st emp aid) (ih _)

/-! ### Completion helpers: a poll whose activities are all open
(falsy `to`) never raises, whatever the state. -/

theorem endBranch_no_end_ok (env : Env) (empId : Nat) (name aid note : String) (a : Activity)
    (fl : Flags) (h : a.toTime.getD 0 = 0) :
    endBranch env empId name aid note a fl = ([], fl, true) := by
  unfold endBranch
  rw [if_neg (by simp [h])]

theorem pa_ok_of_no_end (env : Env) (empId : Nat) (name : String) (sm : SessMap) (a : Activity)
    (h : a.toTime.getD 0 = 0) :
    (processActivity env empId name sm a).2.2 = true := by
  cases ha : a.activityId with
  | none => rw [pa_falsy env empId name sm a (Or.inl ha)]
  | some aid' =>
    by_cases he : aid' = ""
    · subst he
      rw [pa_falsy env empId name sm a (Or.inr ha)]
    · simp only [processActivity, ha]
      rw [if_neg he]
      rw [endBranch_no_end_ok env empId name aid' (note_of a) a _ h]

theorem pas_ok_of_no_end (env : Env) (empId : Nat) (name : String) (acts : List Activity)
    (sm : SessMap) (h : ∀ a ∈ acts, a.toTime.getD 0 = 0) :
    (procActs env empId name sm acts).2.2 = true := by
  induction acts generalizing sm with
  | nil => rfl
  | cons a rest ih =>
    have hhead := pa_ok_of_no_end env empId name sm a (h a (List.mem_cons_self _ _))
    rw [procActs_cons_ok env empId name sm a rest hhead]
    simpa using ih _ (fun b hb => h b (List.mem_cons_of_mem _ hb))

theorem pe_ok_of_no_end (env : Env) (emps : List (Nat × String)) (st : StateMap)
    (h : ∀ e nm, (e, nm) ∈ emps → ∃ acts, env.fetchActs e = some acts ∧
      ∀ a ∈ acts, a.toTime.getD 0 = 0) :
    (procEmps env st emps).2.2 = true := by
  induction emps generalizing st with
  | nil => rfl
  | cons p rest ih =>
    obtain ⟨e0, nm0⟩ := p
    obtain ⟨acts, hf, hacts⟩ := h e0 nm0 (List.mem_cons_self _ _)
    have hok := pas_ok_of_no_end env e0 nm0 acts ((alookup (alinsert st e0 []) e0).getD []) hacts
    rw [procEmps_cons_ok env st e0 nm0 rest acts hf hok]
    simpa using ih _ (fun e nm hm => h e nm (List.mem_cons_of_mem _ hm))

/-! ## Claim C2: monotonic notification flags -/

/-- C2.  For every `(employment, sessionId)` pair, the flags read from
the state store (missing entries reading as the defaulted
`{false, false}` they are created with) never move from `true` to
`false`: one `run_once` — aborted or completed, over its `setdefault`
entry creation and its flag assignments — and any sequence of runs
sharing the store only preserve or raise both flags. -/
theorem C2_monotonic_flags (env : Env) (envs : List Env) (st : StateMap) (emp : Nat)
    (aid : String) :
    flagsLe (lookF st emp aid) (lookF (run_once_persisted env st) emp aid) ∧
    flagsLe (lookF st emp aid) (lookF (runSeq envs st).2 emp aid) :=
  ⟨ro_mono env st emp aid, rs_mono envs st emp aid⟩

/-! ## Claim C4: source-call failure is fatal to the whole poll -/

/-- The open activity used by the C4 and C1 witnesses. -/
def actOpen : Activity := ⟨some "s2", some 100, none, none⟩

/-- First subject's fetch raises; second subject has an open session. -/
def envC4a : Env :=
  { employments := [(1, ("A")), (2, ("B"))]
    fetchActs := fun e => if e = 1 then none else some [actOpen]
    fetchShots := fun _ => some []
    download := fun _ => true
    writerOk := true
    uploadResult := fun _ => none
    now := 0 }

/-- The same poll with the first subject's fetch succeeding instead. -/
def envC4b : Env :=
  { envC4a with fetchActs := fun e => if e = 1 then some [] else some [actOpen] }

/-- C4 counterexample.  At the concrete poll `envC4a`, the source call
for subject 1 fails and `run_once` emits nothing and persists nothing:
subject 2's Start detection — which does fire in the otherwise identical
poll `envC4b` — is skipped, so the failure is fatal to the remaining
subjects of that poll, contrary to the claim. -/
theorem C4_counterexample :
    run_once envC4a [] = ([], none) ∧
    startCount (run_once envC4a []).1 2 ("s2") = 0 ∧
    (run_once envC4b []).2.isSome = true ∧
    startCount (run_once envC4b []).1 2 ("s2") = 1 := by
  refine ⟨?_, ?_, ?_, ?_⟩ <;> decide

/-- C4 amended.  If the activity fetch for any configured subject fails,
the exception propagates out of `run_once`: the run aborts (subjects
after the failing one are never processed) and `save_state` is not
reached, so the persisted state is unaffected and the next poll retries
naturally. -/
theorem C4_source_failure_aborts (env : Env) (st : StateMap) (e : Nat) (nm : String)
    (hmem : (e, nm) ∈ env.employments) (hfail : env.fetchActs e = none) :
    (run_once env st).2 = none ∧ run_once_persisted env st = st := by
  have hko := pe_fetch_fail env env.employments st e nm hmem hfail
  constructor
  · rw [run_once_eq_bad env st hko]
  · unfold run_once_persisted
    rw [run_once_eq_bad env st hko]
    rfl

/-- An environment whose only subject's fetch raises, for the C4
witness. -/
def envC4w : Env :=
  { envC4a with employments := [(1, ("A"))], fetchActs := fun _ => none }

/-- Witness for the amended C4 at a concrete failing poll over a
non-empty persisted state. -/
theorem C4_source_failure_aborts_witness :
    (run_once envC4w stPrev).2 = none ∧ run_once_persisted envC4w stPrev = stPrev :=
  C4_source_failure_aborts envC4w stPrev 1 ("A") (by decide) rfl

/-! ## Claim C1: exactly-once Start detection -/

/-- A poll sights `(emp, aid)` with a truthy start: the employment is
configured, its activity fetch succeeds, and the fetched list contains a
record with this session id and a truthy (non-zero, present) `from`. -/
def sights (env : Env) (emp : Nat) (aid : String) : Prop :=
  ∃ nm acts, (emp, nm) ∈ env.employments ∧ env.fetchActs emp = some acts ∧
    ∃ a ∈ acts, a.activityId = some aid ∧ a.fromTime.getD 0 ≠ 0

/-- An activity whose `from` key is present but zero. -/
def actZero : Activity := ⟨some "s1", some 0, none, none⟩

/-- A completing poll that returns `actZero` for its one subject. -/
def envZ : Env :=
  { employments := [(1, ("A"))]
    fetchActs := fun _ => some [actZero]
    fetchShots := fun _ => some []
    download := fun _ => true
    writerOk := true
    uploadResult := fun _ => none
    now := 0 }

/-- C1 counterexample.  A session polled once (N = 1) with `startTime`
**present** in the poll — but equal to 0 — on a fresh store, in a run
that completes: the detector emits **zero** Start notifications, not
exactly one, because the guard `if start_ts:` uses Python truthiness and
drops the present-but-zero timestamp. -/
theorem C1_counterexample :
    (1, ("A")) ∈ envZ.employments ∧
    envZ.fetchActs 1 = some [actZero] ∧
    actZero.activityId = some ("s1") ∧
    actZero.fromTime.isSome = true ∧
    (lookF [] 1 ("s1")).notified_start = false ∧
    (run_once envZ []).2.isSome = true ∧
    startCount (run_once envZ []).1 1 ("s1") = 0 := by
  refine ⟨?_, ?_, ?_, ?_, ?_, ?_, ?_⟩ <;> decide

/-- C1 amended.  For every `(employment, sessionId)` polled in every one
of N ≥ 1 `run_once` invocations sharing one state store, with
`startTime` present **and non-zero (truthy)** in all N polls and every
run completing its save, the start text is sent exactly once across the
N runs — on the first sighting, which sets `notified_start`; every later
sighting is a no-op — and the flag ends `true`. -/
theorem C1_exactly_once_start (envs : List Env) (st : StateMap) (emp : Nat) (aid : String)
    (hne : aid ≠ "") (hcons : envs ≠ [])
    (hsight : ∀ env ∈ envs, sights env emp aid)
    (hcomp : ∀ env ∈ envs, ∀ s, (run_once env s).2.isSome = true)
    (h0 : (lookF st emp aid).notified_start = false) :
    startCount (runSeq envs st).1 emp aid = 1 ∧
    (lookF (runSeq envs st).2 emp aid).notified_start = true := by
  cases envs with
  | nil => exact absurd rfl hcons
  | cons env rest =>
    rw [runSeq_cons]
    have hsome := hcomp env (List.mem_cons_self env rest) st
    obtain ⟨st1, hst1⟩ := Option.isSome_iff_exists.mp hsome
    obtain ⟨hc1, hf1⟩ := ro_start_fire env st emp aid st1 hne
      (hsight env (List.mem_cons_self env rest)) h0 hst1
    have hgetD : (run_once env st).2.getD st = st1 := by rw [hst1]; rfl
    obtain ⟨hc2, hf2⟩ := rs_start_true rest ((run_once env st).2.getD st) emp aid
      (by rw [hgetD]; exact hf1)
    constructor
    · simp [startCount_append, hc1, hc2]
    · simpa using hf2

/-- A completing poll that sights an open (no `to`) session `s2`. -/
def envW1 : Env :=
  { employments := [(1, ("A"))]
    fetchActs := fun _ => some [actOpen]
    fetchShots := fun _ => some []
    download := fun _ => true
    writerOk := true
    uploadResult := fun _ => none
    now := 0 }

theorem envW1_completes (s : StateMap) : (run_once envW1 s).2.isSome = true := by
  have hok : (procEmps envW1 s envW1.employments).2.2 = true := by
    apply pe_ok_of_no_end
    intro e nm hmem
    refine ⟨[actOpen], rfl, ?_⟩
    intro a ha
    have : a = actOpen := by simpa using ha
    rw [this]
    rfl
  rw [run_once_eq_ok envW1 s hok]
  rfl

/-- Witness for the amended C1: the session `s2` polled twice with a
truthy start on a fresh store yields exactly one Start text. -/
theorem C1_exactly_once_start_witness :
    startCount (runSeq [envW1, envW1] []).1 1 ("s2") = 1 ∧
    (lookF (runSeq [envW1, envW1] []).2 1 ("s2")).notified_start = true := by
  refine C1_exactly_once_start [envW1, envW1] [] 1 ("s2") (by decide) (by simp) ?_ ?_ (by decide)
  · intro env henv
    fin_cases henv <;>
      exact ⟨("A"), [actOpen], by decide, rfl, actOpen, by decide, by decide, by decide⟩
  · intro env henv s
    fin_cases henv <;> exact envW1_completes s

end SessionMonitor

